import Mathlib

/-!
Verification of the whatsappbot job-pipeline core against its specification.

The Lean definitions below are a shallow embedding of the Python source:

* `splitLoop` / `split_into_chunks` embed
  `AudioProcessor.split_into_chunks` (src/app/services/audio_processor.py).
  The audio stream is represented by its decoded duration in milliseconds;
  each produced chunk is the pair `(start_ms, duration_ms)` (the actual code
  also carries the chunk's bytes, and reports start/duration in minutes by
  dividing by 60000; the arithmetic is performed in milliseconds exactly as
  here).  The Python `while` loop is embedded with an explicit fuel
  parameter; fuel `totalMs` is enough since every iteration advances
  `startMs` by at least one millisecond when the chunk duration is positive
  (for a zero chunk duration the Python loop would not terminate, a case no
  caller exercises since the configured duration is 15 minutes).

* Sections further down embed the transcription orchestrator, the recovery
  service and the message-handler pipeline; see the comments there.
-/

namespace WhatsappBot

/-- One iteration of the `while start_time_ms < total_duration_ms` loop of
`AudioProcessor.split_into_chunks`: emit the window
`[start, min (start + chunk) total)` and continue from its end. -/
def splitLoop (chunkMs totalMs : Nat) : Nat → Nat → List (Nat × Nat)
  | 0, _ => []
  | fuel + 1, startMs =>
    if startMs < totalMs then
      let endMs := min (startMs + chunkMs) totalMs
      (startMs, endMs - startMs) :: splitLoop chunkMs totalMs fuel endMs
    else []

/-- `AudioProcessor.split_into_chunks`, abstracted over the decoded total
duration (ms).  Returns the list of `(start_ms, duration_ms)` windows. -/
def split_into_chunks (chunkMs totalMs : Nat) : List (Nat × Nat) :=
  splitLoop chunkMs totalMs totalMs 0

/-- Number of chunks the engine produces: `⌈totalMs / chunkMs⌉`. -/
def numChunks (chunkMs totalMs : Nat) : Nat :=
  (totalMs + chunkMs - 1) / chunkMs

/-- Closed form of the `k`-th chunk produced from offset `0`. -/
def chunkAt (chunkMs totalMs k : Nat) : Nat × Nat :=
  (k * chunkMs, min ((k + 1) * chunkMs) totalMs - k * chunkMs)

/-!
## Transcription orchestrator

Embeds `TranscriptionService` (src/app/services/transcription.py).

* A Whisper segment carries `(start, end, text)`; the code handles float
  seconds, modelled here as integral seconds (`start`/`stop : Nat`; `end`
  is a Lean keyword).  `_transcribe_simple` renders each segment as
  `"[MM:SS-MM:SS] text"` using Python's `%02d` padding and `str.strip()`
  on the text, and joins lines with `"\n"`.
* `_adjust_timestamps` rewrites every occurrence of the regular expression
  `\[(\d{1,2}):(\d{2})(?:-(\d{1,2}):(\d{2}))?\]` by adding the offset to
  the minute fields and re-rendering with `%02d`; `adjustGo` below is a
  character-level embedding of that `re.sub` scan, including the
  left-to-right scan order, the greedy two-then-one-digit minute match,
  and the ordered fallback from the range form to the single-stamp form.
* `transcribe_chunks` walks the chunks in order, skips chunks whose
  transcription failed or rendered empty (`if not chunk_transcript:
  continue`), offsets every non-first chunk, and joins pieces with a
  blank line; it returns `none` when nothing survived.
-/

/-- One Whisper segment (`segments[i]` of the API result). -/
structure Segment where
  start : Nat
  stop : Nat
  text : String
deriving DecidableEq

/-- The structured Whisper result `{text, segments}`. -/
structure WhisperResult where
  text : String
  segments : List Segment
deriving DecidableEq

/-- Decimal digits of `n` (most significant first), embedding Python `%d`.
The fuel argument `n + 1` always suffices. -/
def natDigitsAux : Nat → Nat → List Char
  | 0, _ => []
  | fuel + 1, n =>
    if n < 10 then [Nat.digitChar n]
    else natDigitsAux fuel (n / 10) ++ [Nat.digitChar (n % 10)]

def natDecimal (n : Nat) : String := ⟨natDigitsAux (n + 1) n⟩

/-- Python's `"%02d" % n`: pad to two digits with a leading zero. -/
def fmt2 (n : Nat) : String := if n < 10 then "0" ++ natDecimal n else natDecimal n

/-- Python `str.strip()` (leading and trailing whitespace removed). -/
def pyStrip (s : String) : String :=
  ⟨((s.data.dropWhile Char.isWhitespace).reverse.dropWhile Char.isWhitespace).reverse⟩

/-- `"[MM:SS-MM:SS]"` for segment times `s`, `e` (in seconds). -/
def renderStamp (s e : Nat) : String :=
  "[" ++ fmt2 (s / 60) ++ ":" ++ fmt2 (s % 60) ++ "-" ++
    fmt2 (e / 60) ++ ":" ++ fmt2 (e % 60) ++ "]"

/-- One rendered transcript line: `f"{timestamp} {text}"`. -/
def renderLine (seg : Segment) : String :=
  renderStamp seg.start seg.stop ++ " " ++ pyStrip seg.text

/-- `"\n".join(transcript_lines)`. -/
def renderTranscript : List Segment → String
  | [] => ""
  | [seg] => renderLine seg
  | seg :: rest => renderLine seg ++ "\n" ++ renderTranscript rest

/-- `TranscriptionService._transcribe_simple`: `none` when the API call
failed (raised) or returned an empty `text`; otherwise the rendered,
timestamped transcript of the segments. -/
def transcribeSimple (result : Option WhisperResult) : Option String :=
  match result with
  | none => none
  | some r => if r.text = "" then none else some (renderTranscript r.segments)

/-- Numeric value of a digit character. -/
def digitVal (c : Char) : Nat := c.toNat - 48

/-- Greedy match of `(\d{1,2}):` — two digits, else one (the two branches
are mutually exclusive, so regex backtracking reduces to this ordered
choice). -/
def parseMinColon : List Char → Option (Nat × List Char)
  | a :: b :: c :: rest =>
    if a.isDigit && b.isDigit && (c == ':') then
      some (10 * digitVal a + digitVal b, rest)
    else if a.isDigit && (b == ':') then
      some (digitVal a, c :: rest)
    else none
  | [a, b] => if a.isDigit && (b == ':') then some (digitVal a, []) else none
  | _ => none

/-- Exactly two digits: `(\d{2})`. -/
def parseTwo : List Char → Option (Nat × List Char)
  | a :: b :: rest =>
    if a.isDigit && b.isDigit then some (10 * digitVal a + digitVal b, rest)
    else none
  | _ => none

/-- Closing `]` of the range form of the pattern. -/
def parseStampClose (sm ss em es : Nat) :
    List Char → Option (Nat × Nat × Option (Nat × Nat) × List Char)
  | c :: r6 => if c = ']' then some (sm, ss, some (em, es), r6) else none
  | [] => none

/-- After `(\d{1,2}):(\d{2})`: either the optional `-(\d{1,2}):(\d{2})`
followed by `]`, or directly `]` (regex backtracking reduces to this
ordered choice since `-` and `]` are distinct). -/
def parseStampTail (sm ss : Nat) :
    List Char → Option (Nat × Nat × Option (Nat × Nat) × List Char)
  | c :: r3 =>
    if c = '-' then
      (parseMinColon r3).bind fun p3 =>
        (parseTwo p3.2).bind fun p4 => parseStampClose sm ss p3.1 p4.1 p4.2
    else if c = ']' then some (sm, ss, none, r3)
    else none
  | [] => none

/-- Match of the timestamp body after an opening `[`:
`(\d{1,2}):(\d{2})(?:-(\d{1,2}):(\d{2}))?\]`.  Returns the start minute,
start second, the optional end pair, and the remaining characters. -/
def parseStamp (cs : List Char) : Option (Nat × Nat × Option (Nat × Nat) × List Char) :=
  (parseMinColon cs).bind fun p1 =>
    (parseTwo p1.2).bind fun p2 => parseStampTail p1.1 p2.1 p2.2

/-- The replacement emitted by `adjust_match`: minutes shifted by the
offset, everything re-rendered with `%02d`. -/
def renderShifted (off sm ss : Nat) : Option (Nat × Nat) → List Char
  | some (em, es) =>
    '[' :: (fmt2 (sm + off)).data ++ ':' :: (fmt2 ss).data ++
      '-' :: (fmt2 (em + off)).data ++ ':' :: (fmt2 es).data ++ [']']
  | none => '[' :: (fmt2 (sm + off)).data ++ ':' :: (fmt2 ss).data ++ [']']

/-- The `re.sub` scan: at each position try the pattern (which can only
start at `[`); on a match emit the replacement and continue after it,
otherwise emit the character and move one position right.  Fuel bounds the
number of scan steps; the string's length always suffices. -/
def adjustGo (off : Nat) : Nat → List Char → List Char
  | 0, _ => []
  | _ + 1, [] => []
  | fuel + 1, c :: cs =>
    if c = '[' then
      match parseStamp cs with
      | some (sm, ss, r, rest) => renderShifted off sm ss r ++ adjustGo off fuel rest
      | none => c :: adjustGo off fuel cs
    else c :: adjustGo off fuel cs

/-- `TranscriptionService._adjust_timestamps` (offset in whole minutes, as
produced by `int(offset_minutes)` on the integral chunk offsets). -/
def adjust_timestamps (off : Nat) (s : String) : String :=
  ⟨adjustGo off s.data.length s.data⟩

/-- The processed transcript of one chunk, given the chunk's start offset
in minutes and the Whisper outcome: `none` when the chunk is skipped
(`if not chunk_transcript: continue`), with `_adjust_timestamps` applied
for every non-first chunk (`if start_time_minutes > 0`). -/
def chunkPiece (p : Nat × Option WhisperResult) : Option String :=
  (transcribeSimple p.2).bind fun t =>
    if t = "" then none else
      some (if 0 < p.1 then adjust_timestamps p.1 t else t)

/-- The accumulation loop of `transcribe_chunks` over `full_transcript`. -/
def transcribeGo (acc : String) : List (Nat × Option WhisperResult) → String
  | [] => acc
  | p :: rest =>
    match chunkPiece p with
    | none => transcribeGo acc rest
    | some t => transcribeGo (if acc = "" then t else acc ++ "\n\n" ++ t) rest

/-- `TranscriptionService.transcribe_chunks`, abstracted over the Whisper
outcome of each chunk: a list of `(start_minutes, outcome)` pairs in chunk
order.  Returns `none` when every chunk was skipped. -/
def transcribe_chunks (chunks : List (Nat × Option WhisperResult)) : Option String :=
  let full := transcribeGo "" chunks
  if full = "" then none else some full

/-- A segment shifted by `d` seconds: the view of the same underlying
audio segment from a chunk starting `d` seconds earlier. -/
def shiftSeg (d : Nat) (seg : Segment) : Segment :=
  ⟨seg.start + d, seg.stop + d, seg.text⟩

/-- `adjustGo` with the fuel the caller `adjust_timestamps` supplies. -/
def adjustL (off : Nat) (cs : List Char) : List Char :=
  adjustGo off cs.length cs

/-- The well-formedness the rendering lemmas need of a segment: times
below 100 minutes (always true of chunk-relative times, since chunks are
15 minutes long) and no `[` in the stripped text. -/
def segGood (seg : Segment) : Prop :=
  seg.start < 6000 ∧ seg.stop < 6000 ∧ ∀ c ∈ (pyStrip seg.text).data, c ≠ '['

instance (seg : Segment) : Decidable (segGood seg) := by
  unfold segGood
  infer_instance

/-- The pieces that survive the per-chunk skip, in chunk order. -/
def successPieces (chunks : List (Nat × Option WhisperResult)) : List String :=
  chunks.filterMap chunkPiece

/-!
## Job entity and store

Embeds the `Interview` entity.  The current `app/domain/entities/interview.py`
is not among the provided sources; the fields below follow the backup copy
`backup_20250627_163737/app/domain/entities/interview.py` together with the
retry fields the live code relies on.  Modelled from the spec: `retry_count`
(integer, starts at 0) and `last_retry_at` (optional timestamp) — the data
model of §3, confirmed by `scripts/migrate_old_interviews.py`, which
backfills exactly `retry_count := 0` and `last_retry_at := None`.

Times are abstract ticks (`Nat`, read as minutes); ids and message ids are
modelled as `Nat`; `audio_size_mb` (a float in the code) is modelled by the
byte count it is computed from.  The fields `duration_minutes`,
`transcript_file_id`, `analysis_file_id`, `selected_prompt_id` and
`custom_instructions` are irrelevant to every claim and omitted.
-/

inductive InterviewStatus
  | pending
  | processing
  | transcribing
  | analyzing
  | completed
  | failed
deriving DecidableEq

structure Interview where
  id : Nat
  phone_number : String
  message_id : Nat
  status : InterviewStatus
  audio_id : String
  audio_size_mb : Nat
  chunks_total : Nat
  chunks_processed : Nat
  transcript : Option String
  analysis : Option String
  created_at : Nat
  started_at : Option Nat
  completed_at : Option Nat
  error : Option String
  retry_count : Nat
  last_retry_at : Option Nat
deriving DecidableEq

/-- `Interview(phone_number=…, message_id=…, audio_id=…)`: every other
field takes its declared default. -/
def newInterview (idv : Nat) (phone : String) (msgId : Nat) (audioId : String)
    (now : Nat) : Interview :=
  { id := idv, phone_number := phone, message_id := msgId, status := .pending,
    audio_id := audioId, audio_size_mb := 0, chunks_total := 0,
    chunks_processed := 0, transcript := none, analysis := none,
    created_at := now, started_at := none, completed_at := none,
    error := none, retry_count := 0, last_retry_at := none }

/-- `Interview.mark_processing`. -/
def mark_processing (now : Nat) (i : Interview) : Interview :=
  { i with status := .processing, started_at := some now }

/-- `Interview.mark_completed`. -/
def mark_completed (now : Nat) (i : Interview) : Interview :=
  { i with status := .completed, completed_at := some now }

/-- `Interview.mark_failed`. -/
def mark_failed (err : String) (now : Nat) (i : Interview) : Interview :=
  { i with status := .failed, error := some err, completed_at := some now }

/-- `InterviewRepository.create` (`insert_one`): the collection carries a
unique index on `message_id`, so inserting a document whose `message_id`
is already present raises (`none`); otherwise the document is appended. -/
def repoCreate (s : List Interview) (i : Interview) : Option (List Interview) :=
  if s.any (fun j => j.message_id == i.message_id) then none
  else some (s ++ [i])

/-- `update_one({"id": i.id}, {"$set": i.dict()})`: replace the first
record with the same id by the whole in-memory document. -/
def repoUpdateGo : List Interview → Interview → List Interview
  | [], _ => []
  | j :: rest, i => if j.id == i.id then i :: rest else j :: repoUpdateGo rest i

/-- `InterviewRepository.update`: the new store plus whether a record
matched (`matched_count == 0` raises `DatabaseError` in the code). -/
def repoUpdate (s : List Interview) (i : Interview) : List Interview × Bool :=
  (repoUpdateGo s i, s.any (fun j => j.id == i.id))

/-!
## Recovery scheduler

Embeds `RecoveryService` (src/app/services/recovery_service.py).  The three
configuration constants are hard-coded in `RecoveryService.__init__`.
MongoDB semantics: a `$lt` comparison against a datetime never matches a
document whose field is `null` or absent (type bracketing), which is why
both scan predicates require the timestamp to be present.
-/

def maxProcessingTimeMinutes : Nat := 60

def maxRetryAttempts : Nat := 3

def retryDelayMinutes : Nat := 5

/-- `_find_orphaned_interviews`: active status and `started_at` older than
the cutoff (the loop re-checks the same condition it queried). -/
def orphanSelect (now : Nat) (i : Interview) : Bool :=
  (i.status == .processing || i.status == .transcribing || i.status == .analyzing) &&
    (match i.started_at with
     | some t => decide (t < now - maxProcessingTimeMinutes)
     | none => false)

/-- `_recover_interview`: increment `retry_count` (no cap check), stamp
`last_retry_at`, force `FAILED`, set the orphan-recovery error note.  The
owner is also notified (not part of the record). -/
def recoverInterview (now : Nat) (i : Interview) : Interview :=
  { i with retry_count := i.retry_count + 1, last_retry_at := some now,
           status := .failed, error := some "Recovered from orphaned state" }

/-- `_find_retry_candidates`: `FAILED`, `retry_count < max_retry_attempts`
and `last_retry_at` an actual timestamp older than the backoff cutoff. -/
def retrySelect (now : Nat) (i : Interview) : Bool :=
  i.status == .failed && decide (i.retry_count < maxRetryAttempts) &&
    (match i.last_retry_at with
     | some t => decide (t < now - retryDelayMinutes)
     | none => false)

/-- The reset performed by `_retry_interview` before re-entering the
pipeline (the re-entry itself runs as a detached task; its store writes
are separate steps of the transition system below). -/
def resetForRetry (now : Nat) (i : Interview) : Interview :=
  { i with status := .pending, error := none,
           retry_count := i.retry_count + 1, last_retry_at := some now }

/-- `_mark_permanently_failed` (also notifies the owner). -/
def markPermanentlyFailed (now : Nat) (i : Interview) : Interview :=
  { i with status := .failed, error := some "Permanently failed",
           completed_at := some now }

/-- `_retry_interview`: the guard `retry_count >= max_retry_attempts`
routes to `_mark_permanently_failed` (second component: was the
permanent-failure notification sent?), otherwise the job is reset for
another pipeline pass. -/
def retryInterview (now : Nat) (i : Interview) : Interview × Bool :=
  if maxRetryAttempts ≤ i.retry_count then (markPermanentlyFailed now i, true)
  else (resetForRetry now i, false)

/-- The orphan scan of one recovery cycle over the whole store. -/
def orphanPass (now : Nat) (s : List Interview) : List Interview :=
  s.map (fun i => if orphanSelect now i then recoverInterview now i else i)

/-- The failed-job scan of one recovery cycle: updated store plus the ids
for which the permanent-failure notification was sent. -/
def retryPass (now : Nat) (s : List Interview) : List Interview × List Nat :=
  (s.map (fun i => if retrySelect now i then (retryInterview now i).1 else i),
   ((s.filter (fun i => retrySelect now i && (retryInterview now i).2)).map
     (fun i => i.id)))

/-- `run_recovery_cycle`: orphan scan first, then the retry scan over the
updated store. -/
def recoveryCycle (now : Nat) (s : List Interview) : List Interview × List Nat :=
  retryPass now (orphanPass now s)

/-- The effect of one recovery cycle on a single record. -/
def cycleStep (now : Nat) (i : Interview) : Interview :=
  let i1 := if orphanSelect now i then recoverInterview now i else i
  if retrySelect now i1 then (retryInterview now i1).1 else i1

/-!
## Message-handler pipeline

Embeds `MessageHandler.process_audio_message` / `_process_audio`
(src/app/services/message_handler.py) as a function of the job store and
an environment of collaborator outcomes.  Every `send_text_message` call
consumes the next value of the `sendOk` oracle — the providers catch all
exceptions internally and return a boolean, which the pipeline never
inspects.  Store writes, stage work and message sends are logged as
events; heartbeat-loop messages (wall-clock driven) are not modelled.
-/

inductive PipelineErr
  | downloadFailed
  | conversionFailed
  | audioTooLarge
  | transcriptionProcess
  | transcriptionFailed
  | analysisFailed
  | documentFailed
  | databaseFailed
deriving DecidableEq

/-- The error text `str(e)` stored by `mark_failed`. -/
def errText : PipelineErr → String
  | .downloadFailed => "Failed to download audio"
  | .conversionFailed => "Failed to convert audio"
  | .audioTooLarge => "Audio too large after conversion"
  | .transcriptionProcess => "Failed to transcribe chunks"
  | .transcriptionFailed => "Transcription failed"
  | .analysisFailed => "Failed to generate analysis"
  | .documentFailed => "Failed to create documents"
  | .databaseFailed => "Database error"

inductive Stage
  | processing
  | transcribing
  | analyzing
deriving DecidableEq

inductive Ev
  | commit (st : InterviewStatus)
  | work (sg : Stage)
  | send (ok : Bool)
deriving DecidableEq

structure PipelineEnv where
  now : Nat
  downloadResult : Option Nat
  decodeOk : Bool
  convertedSizeMB : Nat
  durationMs : Nat
  whisperAt : Nat → Option WhisperResult
  analysisResult : Option (Option String)
  estimateBig : Bool
  analysisLong : Bool
  docgenOk : Bool
  docUploadOk : Bool
  docUploadOk2 : Bool
  sendOk : Nat → Bool

structure RunSt where
  store : List Interview
  iv : Interview
  events : List Ev
  sendIx : Nat

/-- One `send_text_message` / `send_progress_message` call: consume the
next oracle value and log it; the result is otherwise ignored, exactly as
in the code. -/
def doSend (env : PipelineEnv) (s : RunSt) : RunSt :=
  { s with events := s.events ++ [.send (env.sendOk s.sendIx)],
           sendIx := s.sendIx + 1 }

/-- One `interview_repo.update(interview)` call: on a match the whole
in-memory document is written (logged as a commit of its status); with no
match nothing is written and the repository raises. -/
def doUpdate (s : RunSt) : RunSt × Bool :=
  if (repoUpdate s.store s.iv).2 then
    ({ s with store := (repoUpdate s.store s.iv).1,
              events := s.events ++ [.commit s.iv.status] }, true)
  else (s, false)

/-- Log a unit of stage work (an external call or CPU-bound step). -/
def doWork (sg : Stage) (s : RunSt) : RunSt :=
  { s with events := s.events ++ [.work sg] }

/-- The per-chunk loop of `transcribe_chunks` with the
`_update_progress_enhanced` callback: persist `chunks_processed`, send the
progress message, then attempt the chunk; failed or empty chunks are
skipped.  A repository failure inside the callback surfaces as the
wrapping `TranscriptionError`. -/
def chunkLoop (env : PipelineEnv) :
    List (Nat × Nat) → Nat → String → RunSt →
      Except (PipelineErr × RunSt) (RunSt × String)
  | [], _, acc, s => .ok (s, acc)
  | (startMs, _) :: rest, idx, acc, s =>
    let sv := { s with iv := { s.iv with chunks_processed := idx + 1 } }
    match doUpdate sv with
    | (s1, false) => .error (.transcriptionProcess, s1)
    | (s1, true) =>
      let s2 := if idx + 1 ≤ s1.iv.chunks_total then doSend env s1 else s1
      let s3 := doWork .transcribing s2
      match chunkPiece (startMs / 60000, env.whisperAt idx) with
      | none => chunkLoop env rest (idx + 1) acc s3
      | some t =>
        chunkLoop env rest (idx + 1) (if acc = "" then t else acc ++ "\n\n" ++ t) s3

/-- `_process_audio`, stage 1: the "Baixando áudio..." message, the
`download_media` call, and the `if not audio_bytes` check; on success the
byte count is recorded on the in-memory interview. -/
def stDownload (env : PipelineEnv) (s0 : RunSt) :
    Except (PipelineErr × RunSt) (RunSt × Nat) :=
  let s := doWork .processing (doSend env s0)
  match env.downloadResult with
  | none => .error (.downloadFailed, s)
  | some 0 => .error (.downloadFailed, s)
  | some b => .ok ({ s with iv := { s.iv with audio_size_mb := b } }, b)

/-- Stage 2: the optional initial-estimate message, the "Convertendo
áudio..." message and `convert_to_mp3` with its decode failure and its
post-conversion 25 MB ceiling. -/
def stConvert (env : PipelineEnv) (s0 : RunSt) : Except (PipelineErr × RunSt) RunSt :=
  let s := if env.estimateBig then doSend env s0 else s0
  let s := doWork .processing (doSend env s)
  if env.decodeOk = false then .error (.conversionFailed, s)
  else if 25 < env.convertedSizeMB then .error (.audioTooLarge, s)
  else .ok s

/-- Stage 3: `split_into_chunks`, the `chunks_total` update (status still
PROCESSING), the TRANSCRIBING commit, and the optional transcription-start
message. -/
def stChunks (env : PipelineEnv) (s0 : RunSt) :
    Except (PipelineErr × RunSt) (RunSt × List (Nat × Nat)) :=
  let s := doWork .processing s0
  let metas := split_into_chunks (15 * 60000) env.durationMs
  let s := { s with iv := { s.iv with chunks_total := metas.length } }
  match doUpdate s with
  | (s1, false) => .error (.databaseFailed, s1)
  | (s1, true) =>
    let s2 := { s1 with iv := { s1.iv with status := InterviewStatus.transcribing } }
    match doUpdate s2 with
    | (s3, false) => .error (.databaseFailed, s3)
    | (s3, true) => .ok (if 1 < metas.length then doSend env s3 else s3, metas)

/-- Stage 4: the chunk loop, the handler's `if not transcript: raise`, and
the ANALYZING commit carrying the in-memory transcript. -/
def stTranscribe (env : PipelineEnv) (metas : List (Nat × Nat)) (s0 : RunSt) :
    Except (PipelineErr × RunSt) (RunSt × String) :=
  (chunkLoop env metas 0 "" s0).bind fun p =>
    if p.2 = "" then .error (.transcriptionFailed, p.1)
    else
      let s := { p.1 with iv := { p.1.iv with transcript := some p.2, status := InterviewStatus.analyzing } }
      match doUpdate s with
      | (s1, false) => .error (.databaseFailed, s1)
      | (s1, true) => .ok (s1, p.2)

/-- Stage 5: the analysis message(s) and `generate_report`; a raised
`AnalysisError` aborts, an empty result merely leaves `analysis` unset. -/
def stAnalyze (env : PipelineEnv) (s0 : RunSt) : Except (PipelineErr × RunSt) RunSt :=
  let s := doWork .analyzing (doSend env s0)
  match env.analysisResult with
  | none => .error (.analysisFailed, if env.analysisLong then doSend env s else s)
  | some r =>
    let s := if env.analysisLong then doSend env s else s
    .ok (match r with
         | some a => { s with iv := { s.iv with analysis := some a } }
         | none => s)

/-- Stage 6: document generation and delivery, `mark_completed` with its
commit, and the final completion message. -/
def stDocsComplete (env : PipelineEnv) (s0 : RunSt) : Except (PipelineErr × RunSt) RunSt :=
  let s := doWork .analyzing (doSend env s0)
  if env.docgenOk = false then .error (.documentFailed, s)
  else
    let s := if env.docUploadOk then doSend env s else s
    let s := if s.iv.analysis.isSome && env.docUploadOk2 then doSend env s else s
    let s := { s with iv := mark_completed env.now s.iv }
    match doUpdate s with
    | (s1, false) => .error (.databaseFailed, s1)
    | (s1, true) => .ok (doSend env s1)

/-- `_process_audio` (the body inside the handler's `try`): the six stages
in the code's order. -/
def runBody (env : PipelineEnv) (s0 : RunSt) :
    Except (PipelineErr × RunSt) RunSt := do
  let p1 ← stDownload env s0
  let s2 ← stConvert env p1.1
  let p3 ← stChunks env s2
  let p4 ← stTranscribe env p3.2 p3.1
  let s5 ← stAnalyze env p4.1
  stDocsComplete env s5

/-- The handler's `except` block: `mark_failed`, persist, then tell the
owner; if the persist itself raises the message is never sent. -/
def failHandler (env : PipelineEnv) (err : PipelineErr) (s : RunSt) : RunSt :=
  let sv := { s with iv := mark_failed (errText err) env.now s.iv }
  match doUpdate sv with
  | (s1, true) => doSend env s1
  | (s1, false) => s1

/-- `MessageHandler.process_audio_message` for a fresh interview `i0`. -/
def process_audio_message (env : PipelineEnv) (store0 : List Interview)
    (i0 : Interview) : RunSt :=
  match repoCreate store0 i0 with
  | none =>
    -- the unique message_id index rejected insert_one; the except block's
    -- own update matches nothing and re-raises before any message is sent
    { store := store0, iv := mark_failed (errText .databaseFailed) env.now i0,
      events := [], sendIx := 0 }
  | some st1 =>
    let s0 : RunSt := { store := st1, iv := i0,
                        events := [.commit i0.status], sendIx := 0 }
    let s1 := { s0 with iv := mark_processing env.now s0.iv }
    match doUpdate s1 with
    | (s2, false) => failHandler env .databaseFailed s2
    | (s2, true) =>
      match runBody env s2 with
      | .ok sOk => sOk
      | .error (err, sErr) => failHandler env err sErr

/-!
## Reachable stores

The store-level transition system.  Every store write the pipeline
performs goes through `interview_repo.create` or `interview_repo.update`
with the in-memory `Interview` object of `process_audio_message`: that
object is constructed by `Interview(...)` with default `retry_count = 0`
and `last_retry_at = None`, and no statement in `message_handler.py`
ever touches those two fields, so every pipeline write carries
`retry_count = 0` (steps `pipeCreate`/`pipeWrite`; a write by a detached
re-entered pipeline is the same kind of step).  Recovery cycles run
atomically with respect to these writes (`recovery`). -/
inductive Reach : List Interview → Prop
  | init : Reach []
  | pipeCreate (s : List Interview) (i : Interview) (s2 : List Interview) :
      Reach s → i.retry_count = 0 → i.status = .pending →
      repoCreate s i = some s2 → Reach s2
  | pipeWrite (s : List Interview) (i : Interview) :
      Reach s → i.retry_count = 0 → Reach (repoUpdate s i).1
  | recovery (s : List Interview) (now : Nat) :
      Reach s → Reach (recoveryCycle now s).1

/-- The strengthened inductive invariant behind the retry cap: every job
respects the cap, and a job in an active status was written by a pipeline
and so carries `retry_count = 0`. -/
def RetryInv (s : List Interview) : Prop :=
  ∀ j ∈ s, j.retry_count ≤ maxRetryAttempts ∧
    ((j.status = .processing ∨ j.status = .transcribing ∨ j.status = .analyzing) →
      j.retry_count = 0)

/-!
## Status-discipline checker (for the transition contract)

`disciplineFrom cur evs` walks an event trace: a commit may re-commit the
current status, advance to the next stage, or fail; a unit of stage work
is admissible only while the store already holds that stage's status.  It
returns the final persisted status, or `none` when the trace violates the
contract. -/

def nextStatus : InterviewStatus → InterviewStatus
  | .pending => .processing
  | .processing => .transcribing
  | .transcribing => .analyzing
  | .analyzing => .completed
  | .completed => .completed
  | .failed => .failed

def stageStatus : Stage → InterviewStatus
  | .processing => .processing
  | .transcribing => .transcribing
  | .analyzing => .analyzing

def disciplineFrom : InterviewStatus → List Ev → Option InterviewStatus
  | cur, [] => some cur
  | cur, .commit st :: r =>
    if st = cur ∨ st = nextStatus cur ∨ st = .failed then disciplineFrom st r
    else none
  | cur, .work sg :: r =>
    if stageStatus sg = cur then disciplineFrom cur r else none
  | cur, .send _ :: r => disciplineFrom cur r

/-- Agreement of two run states on everything except the message log. -/
def SameCore (a b : RunSt) : Prop := a.store = b.store ∧ a.iv = b.iv

/-- Agreement of two `runBody`-style results up to the message log. -/
def CoreRel : Except (PipelineErr × RunSt) RunSt →
    Except (PipelineErr × RunSt) RunSt → Prop
  | .ok a, .ok b => SameCore a b
  | .error (e1, a), .error (e2, b) => e1 = e2 ∧ SameCore a b
  | _, _ => False

/-- The `(start_minutes, whisper outcome)` inputs the chunk loop feeds
`chunkPiece`, in chunk order starting at chunk index `idx`. -/
def chunkInputs (env : PipelineEnv) : List (Nat × Nat) → Nat → List (Nat × Option WhisperResult)
  | [], _ => []
  | (startMs, _) :: rest, idx => (startMs / 60000, env.whisperAt idx) :: chunkInputs env rest (idx + 1)

/-- A permanently failed job (used as the concrete failing input of the
permanent-failure claims): `FAILED`, `retry_count` at the cap, stale
`last_retry_at`. -/
def cappedJob : Interview :=
  { newInterview 7 "owner" 7 "audio" 0 with
      status := .failed, retry_count := maxRetryAttempts, last_retry_at := some 0,
      error := some "boom" }

/-!
## Walking `_process_audio`

Equation lemmas for each stage of the pipeline body, then a two-run
simulation: the same execution driven by two different send oracles
produces the same store and interview, and its event trace respects the
status discipline.
-/

/-- The frame every pipeline step preserves on the in-memory interview:
identity and ownership fields and the two recovery counters. -/
def ivFrame (a b : Interview) : Prop :=
  b.retry_count = a.retry_count ∧ b.last_retry_at = a.last_retry_at ∧
  b.id = a.id ∧ b.message_id = a.message_id ∧ b.phone_number = a.phone_number ∧
  b.created_at = a.created_at

/-- The whole-stream transcript `_process_audio` assembles. -/
def pipeTranscript (env : PipelineEnv) : String :=
  transcribeGo "" (chunkInputs env (split_into_chunks (15 * 60000) env.durationMs) 0)

/-- Which environment condition produced an abort of `_process_audio`
(`databaseFailed` and `transcriptionProcess` are unreachable when the
record is present in the store). -/
def errExplains (env : PipelineEnv) : PipelineErr → Prop
  | .downloadFailed => env.downloadResult = none ∨ env.downloadResult = some 0
  | .conversionFailed => env.decodeOk = false
  | .audioTooLarge => 25 < env.convertedSizeMB
  | .transcriptionFailed => pipeTranscript env = ""
  | .analysisFailed => env.analysisResult = none
  | .documentFailed => env.docgenOk = false
  | .transcriptionProcess => False
  | .databaseFailed => False

/-- Events of one optional progress message. -/
def optSendEvs (env : PipelineEnv) (c : Bool) (ix : Nat) : List Ev :=
  if c then [.send (env.sendOk ix)] else []

/-- Send-counter advance of one optional progress message. -/
def optSendIx (c : Bool) (ix : Nat) : Nat :=
  if c then ix + 1 else ix

/-- `interview.analysis = analysis if analysis else None`-style optional
field write of the analysis stage. -/
def applyAnalysis (r : Option String) (iv : Interview) : Interview :=
  match r with
  | some a => { iv with analysis := some a }
  | none => iv

/-- Suffix of `_process_audio` from the conversion step on. -/
def runBody2 (env : PipelineEnv) (s : RunSt) : Except (PipelineErr × RunSt) RunSt := do
  let s2 ← stConvert env s
  let p3 ← stChunks env s2
  let p4 ← stTranscribe env p3.2 p3.1
  let s5 ← stAnalyze env p4.1
  stDocsComplete env s5

/-- Suffix of `_process_audio` from the chunking step on. -/
def runBody3 (env : PipelineEnv) (s : RunSt) : Except (PipelineErr × RunSt) RunSt := do
  let p3 ← stChunks env s
  let p4 ← stTranscribe env p3.2 p3.1
  let s5 ← stAnalyze env p4.1
  stDocsComplete env s5

/-- Suffix of `_process_audio` from the transcription step on. -/
def runBody4 (env : PipelineEnv) (metas : List (Nat × Nat)) (s : RunSt) :
    Except (PipelineErr × RunSt) RunSt := do
  let p4 ← stTranscribe env metas s
  let s5 ← stAnalyze env p4.1
  stDocsComplete env s5

/-- Suffix of `_process_audio` from the analysis step on. -/
def runBody5 (env : PipelineEnv) (s : RunSt) : Except (PipelineErr × RunSt) RunSt := do
  let s5 ← stAnalyze env s
  stDocsComplete env s5

/-- A fresh interview used to evaluate the pipeline on concrete inputs. -/
def i0W : Interview := newInterview 1 "owner" 1 "audio" 0

/-- A concrete healthy environment whose every chunk transcription fails:
one 60-second stream, whisper returns nothing, everything else succeeds. -/
def envW : PipelineEnv :=
  { now := 0, downloadResult := some 5, decodeOk := true, convertedSizeMB := 10,
    durationMs := 60000, whisperAt := fun _ => none,
    analysisResult := some (some "ok"), estimateBig := false, analysisLong := false,
    docgenOk := true, docUploadOk := true, docUploadOk2 := true,
    sendOk := fun _ => true }

/-- `envW` with a zero-duration decoded stream. -/
def envW0 : PipelineEnv := { envW with durationMs := 0 }

/-- The failed job the retry scan re-drives in the C10 scenario. -/
def origJob : Interview :=
  { newInterview 5 "owner" 7 "audio" 0 with
      status := .failed, retry_count := 2, last_retry_at := some 0,
      error := some "boom" }

theorem splitLoop_closed (D T : Nat) (hD : 0 < D) :
    ∀ fuel startMs, T - startMs ≤ fuel →
      splitLoop D T fuel startMs =
        (List.range ((T - startMs + D - 1) / D)).map
          (fun k => (startMs + k * D, min (startMs + (k + 1) * D) T - (startMs + k * D))) := by
  intro fuel
  induction fuel with
  | zero =>
    intro startMs h
    have hTs : T - startMs = 0 := Nat.le_zero.mp h
    rw [splitLoop, hTs]
    have : (0 + D - 1) / D = 0 := Nat.div_eq_of_lt (by omega)
    rw [this]
    simp
  | succ fuel ih =>
    intro startMs h
    rw [splitLoop]
    by_cases hlt : startMs < T
    · simp only [if_pos hlt]
      set e := min (startMs + D) T with he
      have he1 : startMs + 1 ≤ e := by omega
      have hfuel : T - e ≤ fuel := by omega
      rw [ih e hfuel]
      by_cases hcase : startMs + D ≤ T
      · -- the emitted window is full: `e = startMs + D`
        have heD : e = startMs + D := by omega
        have hn : (T - startMs + D - 1) / D = (T - e + D - 1) / D + 1 := by
          have harg : T - startMs + D - 1 = T - e + D - 1 + D := by omega
          rw [harg, Nat.add_div_right _ hD]
        rw [hn, List.range_succ_eq_map, List.map_cons, List.map_map]
        refine List.cons_eq_cons.mpr ⟨?_, ?_⟩
        · simp only [Nat.zero_mul, Nat.add_zero, Nat.one_mul, Nat.zero_add, Prod.mk.injEq]
        · apply List.map_congr_left
          intro k _
          simp only [Function.comp_apply]
          have h1 : startMs + (k + 1) * D = e + k * D := by rw [heD]; ring
          have h2 : startMs + (k + 1 + 1) * D = e + (k + 1) * D := by rw [heD]; ring
          rw [h1]
          rw [Nat.succ_eq_add_one, h2]
      · -- truncated final window: `e = T`
        have heT : e = T := by omega
        have hn' : (T - e + D - 1) / D = 0 := by
          rw [heT]
          exact Nat.div_eq_of_lt (by omega)
        have hn : (T - startMs + D - 1) / D = 1 := by
          apply Nat.div_eq_of_lt_le <;> omega
        rw [hn', hn]
        simp only [List.range_succ, List.range_zero, List.nil_append, List.map_cons,
          List.map_nil, List.cons.injEq, and_true, Prod.mk.injEq,
          Nat.zero_mul, Nat.add_zero, Nat.zero_add, Nat.one_mul]
    · simp only [if_neg hlt]
      have hTs : T - startMs = 0 := by omega
      rw [hTs]
      have : (0 + D - 1) / D = 0 := Nat.div_eq_of_lt (by omega)
      rw [this]
      simp

/-- `split_into_chunks` in closed form. -/
theorem split_into_chunks_eq_map (D T : Nat) (hD : 0 < D) :
    split_into_chunks D T = (List.range (numChunks D T)).map (chunkAt D T) := by
  rw [split_into_chunks, splitLoop_closed D T hD T 0 (by omega)]
  simp [numChunks, chunkAt]

theorem split_into_chunks_length (D T : Nat) (hD : 0 < D) :
    (split_into_chunks D T).length = numChunks D T := by
  rw [split_into_chunks_eq_map D T hD]
  simp

theorem split_into_chunks_getD (D T k : Nat) (hD : 0 < D) (hk : k < numChunks D T) :
    (split_into_chunks D T).getD k (0, 0) = chunkAt D T k := by
  rw [split_into_chunks_eq_map D T hD]
  rw [List.getD_eq_getElem?_getD, List.getElem?_map, List.getElem?_range hk]
  rfl

/-- Every non-final chunk index ends strictly inside the stream. -/
theorem mul_le_of_lt_numChunks (D T k : Nat) (hD : 0 < D) (hk : k + 1 < numChunks D T) :
    (k + 1) * D ≤ T := by
  have hmul : numChunks D T * D ≤ T + D - 1 := Nat.div_mul_le_self _ _
  have hle : (k + 2) * D ≤ numChunks D T * D :=
    Nat.mul_le_mul_right D (by omega)
  have hsplit : (k + 2) * D = (k + 1) * D + D := by ring
  omega

/-- First and second components of `chunkAt`. -/
theorem chunkAt_fst (D T k : Nat) : (chunkAt D T k).1 = k * D := rfl

theorem chunkAt_snd (D T k : Nat) :
    (chunkAt D T k).2 = min ((k + 1) * D) T - k * D := rfl

/-- The stream ends at or before the end of the final chunk window. -/
theorem le_numChunks_mul (D T : Nat) (hD : 0 < D) : T ≤ numChunks D T * D := by
  have h := Nat.div_add_mod (T + D - 1) D
  have hm : (T + D - 1) % D < D := Nat.mod_lt _ hD
  have hc : numChunks D T * D = D * ((T + D - 1) / D) := Nat.mul_comm _ _
  rw [hc]
  omega

theorem numChunks_pos (D T : Nat) (hD : 0 < D) (hT : 0 < T) : 0 < numChunks D T := by
  have h1 : 1 ≤ (T + D - 1) / D := by
    rw [Nat.le_div_iff_mul_le hD]
    omega
  exact h1

/-- With `T` an exact multiple of `D`, the chunk count is exactly `T / D`. -/
theorem numChunks_of_dvd (D T : Nat) (hD : 0 < D) (hT : 0 < T) (hmod : T % D = 0) :
    numChunks D T = T / D := by
  have h := Nat.div_add_mod T D
  have harg : T + D - 1 = D - 1 + D * (T / D) := by omega
  unfold numChunks
  rw [harg, Nat.add_mul_div_left _ _ hD, Nat.div_eq_of_lt (by omega)]
  omega

/-- With a remainder, the chunk count is `T / D + 1`. -/
theorem numChunks_of_not_dvd (D T : Nat) (hD : 0 < D) (hmod : T % D ≠ 0) :
    numChunks D T = T / D + 1 := by
  have h := Nat.div_add_mod T D
  have hm : T % D < D := Nat.mod_lt _ hD
  have harg : T + D - 1 = T % D + D - 1 + D * (T / D) := by omega
  have h1 : (T % D + D - 1) / D = 1 := Nat.div_eq_of_lt_le (by omega) (by omega)
  unfold numChunks
  rw [harg, Nat.add_mul_div_left _ _ hD, h1]
  omega

/-- C2: for every positive chunk duration `D` and stream duration `T`,
`split_into_chunks` produces exactly `⌈T / D⌉` chunks, starting at
`0, D, 2·D, …`, adjacent with no gap or overlap, all of duration `D` except
the last, whose duration is `T mod D` (or `D` when `D ∣ T`); and a
37-minute stream with 15-minute chunks yields the three chunks
`(15, 15, 7)` minutes (stated in milliseconds, as the code computes). -/
theorem claim_C2_chunking (D T : Nat) (hD : 0 < D) (hT : 0 < T) :
    (split_into_chunks D T).length = (T + D - 1) / D ∧
    (∀ k, k < (T + D - 1) / D → ((split_into_chunks D T).getD k (0, 0)).1 = k * D) ∧
    (∀ k, k + 1 < (T + D - 1) / D → ((split_into_chunks D T).getD k (0, 0)).2 = D) ∧
    ((split_into_chunks D T).getD ((T + D - 1) / D - 1) (0, 0)).2 =
      (if T % D = 0 then D else T % D) ∧
    (∀ k, k + 1 < (T + D - 1) / D →
      ((split_into_chunks D T).getD (k + 1) (0, 0)).1 =
        ((split_into_chunks D T).getD k (0, 0)).1 +
          ((split_into_chunks D T).getD k (0, 0)).2) ∧
    split_into_chunks (15 * 60000) (37 * 60000) =
      [(0, 15 * 60000), (15 * 60000, 15 * 60000), (30 * 60000, 7 * 60000)] := by
  have hnum : numChunks D T = (T + D - 1) / D := rfl
  have hstart : ∀ k, k < (T + D - 1) / D →
      ((split_into_chunks D T).getD k (0, 0)).1 = k * D := by
    intro k hk
    rw [split_into_chunks_getD D T k hD hk, chunkAt_fst]
  have hdur : ∀ k, k + 1 < (T + D - 1) / D →
      ((split_into_chunks D T).getD k (0, 0)).2 = D := by
    intro k hk
    rw [split_into_chunks_getD D T k hD (by omega), chunkAt_snd]
    have hend : (k + 1) * D ≤ T := mul_le_of_lt_numChunks D T k hD hk
    have hsplit : (k + 1) * D = k * D + D := by ring
    omega
  refine ⟨split_into_chunks_length D T hD, hstart, hdur, ?_, ?_, by decide⟩
  · -- final chunk duration
    have hpos := numChunks_pos D T hD hT
    have hlast : numChunks D T - 1 < numChunks D T := by omega
    rw [← hnum, split_into_chunks_getD D T _ hD hlast, chunkAt_snd]
    have hTle := le_numChunks_mul D T hD
    have hsucc : numChunks D T - 1 + 1 = numChunks D T := by omega
    rw [hsucc]
    by_cases hmod : T % D = 0
    · rw [if_pos hmod]
      have hq := numChunks_of_dvd D T hD hT hmod
      have e3 : D ≤ T := Nat.le_of_dvd hT (Nat.dvd_of_mod_eq_zero hmod)
      have hT' : T / D * D = T := Nat.div_mul_cancel (Nat.dvd_of_mod_eq_zero hmod)
      rw [hq, Nat.sub_mul, Nat.one_mul, hT', Nat.min_self]
      omega
    · rw [if_neg hmod]
      have hq := numChunks_of_not_dvd D T hD hmod
      have hdm := Nat.div_add_mod T D
      have hm : T % D < D := Nat.mod_lt _ hD
      have e1 : T / D * D = D * (T / D) := Nat.mul_comm _ _
      have e4 : (T / D + 1) * D = T / D * D + D := by ring
      rw [hq]
      simp only [Nat.add_sub_cancel]
      omega
  · -- adjacency: each chunk starts where the previous one ends
    intro k hk
    rw [hstart (k + 1) hk, hstart k (by omega), hdur k hk]
    ring

/-- Witness for `claim_C2_chunking` at `D = 2`, `T = 5`. -/
theorem claim_C2_chunking_witness :
    0 < 2 ∧ 0 < 5 ∧ (split_into_chunks 2 5).length = 3 :=
  ⟨by decide, by decide, (claim_C2_chunking 2 5 (by decide) (by decide)).1⟩

theorem natDigitsAux_succ (fuel n : Nat) :
    natDigitsAux (fuel + 1) n =
      if n < 10 then [Nat.digitChar n]
      else natDigitsAux fuel (n / 10) ++ [Nat.digitChar (n % 10)] := rfl

theorem natDecimal_lt10 (n : Nat) (h : n < 10) :
    (natDecimal n).data = [Nat.digitChar n] := by
  rw [natDecimal, natDigitsAux_succ, if_pos h]

theorem natDecimal_two (n : Nat) (h10 : 10 ≤ n) (h100 : n < 100) :
    (natDecimal n).data = [Nat.digitChar (n / 10), Nat.digitChar (n % 10)] := by
  rw [natDecimal]
  obtain ⟨m, rfl⟩ : ∃ m, n = m + 1 := ⟨n - 1, by omega⟩
  rw [natDigitsAux_succ, if_neg (by omega), natDigitsAux_succ, if_pos (by omega)]
  rfl

theorem fmt2_data (n : Nat) (h : n < 100) :
    (fmt2 n).data = [Nat.digitChar (n / 10), Nat.digitChar (n % 10)] := by
  rw [fmt2]
  by_cases h10 : n < 10
  · rw [if_pos h10]
    have hd : ("0" ++ natDecimal n).data = '0' :: (natDecimal n).data := rfl
    rw [hd, natDecimal_lt10 n h10]
    have h0 : n / 10 = 0 := by omega
    have hm : n % 10 = n := by omega
    rw [h0, hm]
    rfl
  · rw [if_neg h10]
    exact natDecimal_two n (by omega) h

theorem digitChar_isDigit (d : Nat) (h : d < 10) : (Nat.digitChar d).isDigit = true := by
  interval_cases d <;> decide

theorem digitVal_digitChar (d : Nat) (h : d < 10) : digitVal (Nat.digitChar d) = d := by
  interval_cases d <;> decide

theorem digitChar_ne_lbracket (d : Nat) (h : d < 10) : Nat.digitChar d ≠ '[' := by
  interval_cases d <;> decide

theorem parseMinColon_fmt2 (n : Nat) (h : n < 100) (rest : List Char) :
    parseMinColon ((fmt2 n).data ++ ':' :: rest) = some (n, rest) := by
  rw [fmt2_data n h]
  show parseMinColon (Nat.digitChar (n / 10) :: Nat.digitChar (n % 10) :: ':' :: rest) = _
  rw [parseMinColon]
  rw [if_pos]
  · have hv1 := digitVal_digitChar (n / 10) (by omega)
    have hv2 := digitVal_digitChar (n % 10) (by omega)
    rw [hv1, hv2]
    have : 10 * (n / 10) + n % 10 = n := by omega
    rw [this]
  · rw [digitChar_isDigit _ (by omega), digitChar_isDigit _ (by omega)]
    rfl

theorem parseTwo_fmt2 (n : Nat) (h : n < 100) (rest : List Char) :
    parseTwo ((fmt2 n).data ++ rest) = some (n, rest) := by
  rw [fmt2_data n h]
  show parseTwo (Nat.digitChar (n / 10) :: Nat.digitChar (n % 10) :: rest) = _
  rw [parseTwo]
  rw [if_pos]
  · have hv1 := digitVal_digitChar (n / 10) (by omega)
    have hv2 := digitVal_digitChar (n % 10) (by omega)
    rw [hv1, hv2]
    have : 10 * (n / 10) + n % 10 = n := by omega
    rw [this]
  · rw [digitChar_isDigit _ (by omega), digitChar_isDigit _ (by omega)]
    rfl

theorem parseStamp_render (s e : Nat) (hs : s < 6000) (he : e < 6000) (rest : List Char) :
    parseStamp ((fmt2 (s / 60)).data ++ ':' :: ((fmt2 (s % 60)).data ++
        '-' :: ((fmt2 (e / 60)).data ++ ':' :: ((fmt2 (e % 60)).data ++ ']' :: rest)))) =
      some (s / 60, s % 60, some (e / 60, e % 60), rest) := by
  rw [parseStamp, parseMinColon_fmt2 (s / 60) (by omega)]
  simp only [Option.some_bind]
  rw [parseTwo_fmt2 (s % 60) (by omega)]
  simp only [Option.some_bind]
  rw [parseStampTail, if_pos rfl, parseMinColon_fmt2 (e / 60) (by omega)]
  simp only [Option.some_bind]
  rw [parseTwo_fmt2 (e % 60) (by omega)]
  simp only [Option.some_bind]
  rw [parseStampClose, if_pos rfl]

theorem parseMinColon_le (cs : List Char) (p : Nat × List Char)
    (h : parseMinColon cs = some p) : p.2.length + 2 ≤ cs.length := by
  rcases cs with _ | ⟨a, _ | ⟨b, _ | ⟨c, rest⟩⟩⟩
  · simp [parseMinColon] at h
  · simp [parseMinColon] at h
  · rw [parseMinColon] at h
    split_ifs at h with h1
    injection h with h'
    rw [← h']
    simp
  · rw [parseMinColon] at h
    split_ifs at h with h1 h2
    · injection h with h'
      rw [← h']
      simp
    · injection h with h'
      rw [← h']
      simp

theorem parseTwo_le (cs : List Char) (p : Nat × List Char)
    (h : parseTwo cs = some p) : p.2.length + 2 ≤ cs.length := by
  rcases cs with _ | ⟨a, _ | ⟨b, rest⟩⟩
  · simp [parseTwo] at h
  · simp [parseTwo] at h
  · rw [parseTwo] at h
    split_ifs at h with h1
    injection h with h'
    rw [← h']
    simp

theorem parseStampClose_le (sm ss em es : Nat) (cs : List Char)
    (q : Nat × Nat × Option (Nat × Nat) × List Char)
    (h : parseStampClose sm ss em es cs = some q) : q.2.2.2.length + 1 ≤ cs.length := by
  rcases cs with _ | ⟨c, r6⟩
  · simp [parseStampClose] at h
  · rw [parseStampClose] at h
    split_ifs at h with h1
    injection h with h'
    rw [← h']
    simp

theorem parseStampTail_le (sm ss : Nat) (cs : List Char)
    (q : Nat × Nat × Option (Nat × Nat) × List Char)
    (h : parseStampTail sm ss cs = some q) : q.2.2.2.length + 1 ≤ cs.length := by
  rcases cs with _ | ⟨c, r3⟩
  · simp [parseStampTail] at h
  · rw [parseStampTail] at h
    split_ifs at h with h1 h2
    · rcases h3 : parseMinColon r3 with _ | p3 <;> rw [h3] at h
      · simp at h
      simp only [Option.some_bind] at h
      rcases h4 : parseTwo p3.2 with _ | p4 <;> rw [h4] at h
      · simp at h
      simp only [Option.some_bind] at h
      have l3 := parseMinColon_le r3 p3 h3
      have l4 := parseTwo_le p3.2 p4 h4
      have l5 := parseStampClose_le sm ss p3.1 p4.1 p4.2 q h
      simp only [List.length_cons]
      omega
    · injection h with h'
      rw [← h']
      simp

theorem parseStamp_le (cs : List Char)
    (q : Nat × Nat × Option (Nat × Nat) × List Char)
    (h : parseStamp cs = some q) : q.2.2.2.length + 5 ≤ cs.length := by
  rw [parseStamp] at h
  rcases h1 : parseMinColon cs with _ | p1 <;> rw [h1] at h
  · simp at h
  simp only [Option.some_bind] at h
  rcases h2 : parseTwo p1.2 with _ | p2 <;> rw [h2] at h
  · simp at h
  simp only [Option.some_bind] at h
  have l1 := parseMinColon_le cs p1 h1
  have l2 := parseTwo_le p1.2 p2 h2
  have l3 := parseStampTail_le p1.1 p2.1 p2.2 q h
  omega

theorem adjustGo_nil (off : Nat) : ∀ fuel, adjustGo off fuel [] = [] := by
  intro fuel
  cases fuel <;> rfl

theorem adjustGo_cons (off fuel : Nat) (c : Char) (cs : List Char) :
    adjustGo off (fuel + 1) (c :: cs) =
      if c = '[' then
        match parseStamp cs with
        | some (sm, ss, r, rest) => renderShifted off sm ss r ++ adjustGo off fuel rest
        | none => c :: adjustGo off fuel cs
      else c :: adjustGo off fuel cs := rfl

theorem adjustGo_match (off fuel : Nat) (cs : List Char) (sm ss : Nat)
    (r : Option (Nat × Nat)) (rest : List Char)
    (hps : parseStamp cs = some (sm, ss, r, rest)) :
    adjustGo off (fuel + 1) ('[' :: cs) =
      renderShifted off sm ss r ++ adjustGo off fuel rest := by
  rw [adjustGo_cons, if_pos rfl, hps]

theorem adjustGo_nomatch (off fuel : Nat) (cs : List Char) (hps : parseStamp cs = none) :
    adjustGo off (fuel + 1) ('[' :: cs) = '[' :: adjustGo off fuel cs := by
  rw [adjustGo_cons, if_pos rfl, hps]

theorem adjustGo_other (off fuel : Nat) (c : Char) (cs : List Char) (hc : c ≠ '[') :
    adjustGo off (fuel + 1) (c :: cs) = c :: adjustGo off fuel cs := by
  rw [adjustGo_cons, if_neg hc]

theorem adjustGo_fuel (off : Nat) :
    ∀ f1 f2 cs, cs.length ≤ f1 → cs.length ≤ f2 →
      adjustGo off f1 cs = adjustGo off f2 cs := by
  intro f1
  induction f1 with
  | zero =>
    intro f2 cs h1 _
    have hnil : cs = [] := List.length_eq_zero.mp (by omega)
    subst hnil
    rw [adjustGo_nil, adjustGo_nil]
  | succ f ih =>
    intro f2 cs h1 h2
    rcases cs with _ | ⟨c, cs'⟩
    · rw [adjustGo_nil, adjustGo_nil]
    · simp only [List.length_cons] at h1 h2
      obtain ⟨g, rfl⟩ : ∃ g, f2 = g + 1 := ⟨f2 - 1, by omega⟩
      by_cases hc : c = '['
      · subst hc
        rcases hps : parseStamp cs' with _ | ⟨sm, ss, r, rest⟩
        · rw [adjustGo_nomatch off f cs' hps, adjustGo_nomatch off g cs' hps,
            ih g cs' (by omega) (by omega)]
        · have hlt := parseStamp_le cs' _ hps
          rw [adjustGo_match off f cs' sm ss r rest hps,
            adjustGo_match off g cs' sm ss r rest hps,
            ih g rest (by simp at hlt; omega) (by simp at hlt; omega)]
      · rw [adjustGo_other off f c cs' hc, adjustGo_other off g c cs' hc,
          ih g cs' (by omega) (by omega)]

theorem adjustGo_pass (off : Nat) :
    ∀ (t rest : List Char), (∀ c ∈ t, c ≠ '[') → ∀ fuel, t.length + rest.length ≤ fuel →
      adjustGo off fuel (t ++ rest) = t ++ adjustGo off (fuel - t.length) rest := by
  intro t
  induction t with
  | nil =>
    intro rest _ fuel _
    simp
  | cons c t' ih =>
    intro rest h fuel hf
    simp only [List.length_cons] at hf
    obtain ⟨f, rfl⟩ : ∃ f, fuel = f + 1 := ⟨fuel - 1, by omega⟩
    have hc : c ≠ '[' := h c (by simp)
    rw [List.cons_append, adjustGo_other off f c (t' ++ rest) hc,
      ih rest (fun x hx => h x (by simp [hx])) f (by omega)]
    have hfe : f + 1 - (c :: t').length = f - t'.length := by
      simp only [List.length_cons]
      omega
    rw [hfe]
    rfl

theorem adjustL_step_match (off : Nat) (cs : List Char) (sm ss : Nat)
    (r : Option (Nat × Nat)) (rest : List Char)
    (hps : parseStamp cs = some (sm, ss, r, rest)) :
    adjustL off ('[' :: cs) = renderShifted off sm ss r ++ adjustL off rest := by
  rw [adjustL]
  simp only [List.length_cons]
  rw [adjustGo_match off cs.length cs sm ss r rest hps]
  congr 1
  have hlt := parseStamp_le cs _ hps
  simp only at hlt
  exact adjustGo_fuel off cs.length rest.length rest (by omega) (le_refl _)

theorem adjustL_pass (off : Nat) (t rest : List Char) (h : ∀ c ∈ t, c ≠ '[') :
    adjustL off (t ++ rest) = t ++ adjustL off rest := by
  rw [adjustL, adjustGo_pass off t rest h _ (by simp)]
  congr 1
  have hlen : (t ++ rest).length - t.length = rest.length := by simp
  rw [hlen]
  rfl

theorem renderStamp_data (s e : Nat) :
    (renderStamp s e).data =
      '[' :: ((fmt2 (s / 60)).data ++ ':' :: ((fmt2 (s % 60)).data ++
        '-' :: ((fmt2 (e / 60)).data ++ ':' :: ((fmt2 (e % 60)).data ++ [']'])))) := by
  have h1 : ("[" : String).data = ['['] := rfl
  have h2 : (":" : String).data = [':'] := rfl
  have h3 : ("-" : String).data = ['-'] := rfl
  have h4 : ("]" : String).data = [']'] := rfl
  simp [renderStamp, String.data_append, h1, h2, h3, h4, List.append_assoc]

theorem renderLine_data (seg : Segment) :
    (renderLine seg).data =
      (renderStamp seg.start seg.stop).data ++ ' ' :: (pyStrip seg.text).data := by
  have hsp : (" " : String).data = [' '] := rfl
  simp [renderLine, String.data_append, hsp]

/-- Shifting minutes after rendering agrees with rendering the shifted
segment: `a + 60·off` has minute `a/60 + off` and second `a % 60`. -/
theorem renderShifted_eq_stamp (off s e : Nat) :
    renderShifted off (s / 60) (s % 60) (some (e / 60, e % 60)) =
      (renderStamp (s + 60 * off) (e + 60 * off)).data := by
  have h1 : (s + 60 * off) / 60 = s / 60 + off := Nat.add_mul_div_left s off (by norm_num)
  have h2 : (s + 60 * off) % 60 = s % 60 := Nat.add_mul_mod_self_left s 60 off
  have h3 : (e + 60 * off) / 60 = e / 60 + off := Nat.add_mul_div_left e off (by norm_num)
  have h4 : (e + 60 * off) % 60 = e % 60 := Nat.add_mul_mod_self_left e 60 off
  rw [renderStamp_data, h1, h2, h3, h4, renderShifted]
  simp only [List.cons_append, List.append_assoc]

theorem adjustL_line (off : Nat) (seg : Segment) (rest : List Char)
    (hs : seg.start < 6000) (he : seg.stop < 6000)
    (htext : ∀ c ∈ (pyStrip seg.text).data, c ≠ '[') :
    adjustL off ((renderLine seg).data ++ rest) =
      (renderLine (shiftSeg (60 * off) seg)).data ++ adjustL off rest := by
  rw [renderLine_data, renderStamp_data]
  simp only [List.cons_append, List.append_assoc, List.singleton_append, List.nil_append]
  rw [adjustL_step_match off _ (seg.start / 60) (seg.start % 60)
    (some (seg.stop / 60, seg.stop % 60)) (' ' :: ((pyStrip seg.text).data ++ rest))
    (parseStamp_render seg.start seg.stop hs he _)]
  have hpass : adjustL off (' ' :: ((pyStrip seg.text).data ++ rest)) =
      (' ' :: (pyStrip seg.text).data) ++ adjustL off rest := by
    have : (' ' :: ((pyStrip seg.text).data ++ rest)) =
        (' ' :: (pyStrip seg.text).data) ++ rest := by simp
    rw [this, adjustL_pass off _ rest]
    intro c hc
    rcases List.mem_cons.mp hc with h | h
    · subst h
      decide
    · exact htext c h
  rw [hpass, renderShifted_eq_stamp off seg.start seg.stop]
  rw [renderLine_data, renderStamp_data]
  have hshift : shiftSeg (60 * off) seg =
      ⟨seg.start + 60 * off, seg.stop + 60 * off, seg.text⟩ := rfl
  rw [hshift]
  simp only [renderStamp_data, List.cons_append, List.append_assoc, List.singleton_append]

theorem renderTranscript_cons2 (seg seg2 : Segment) (rest : List Segment) :
    renderTranscript (seg :: seg2 :: rest) =
      renderLine seg ++ "\n" ++ renderTranscript (seg2 :: rest) := rfl

theorem adjustL_transcript (off : Nat) :
    ∀ segs : List Segment, (∀ seg ∈ segs, segGood seg) →
      adjustL off (renderTranscript segs).data =
        (renderTranscript (segs.map (shiftSeg (60 * off)))).data := by
  intro segs
  induction segs with
  | nil => intro _; rfl
  | cons seg rest ih =>
    intro h
    rcases rest with _ | ⟨seg2, rest'⟩
    · obtain ⟨hs, he, htext⟩ := h seg (by simp)
      show adjustL off (renderLine seg).data = (renderLine (shiftSeg (60 * off) seg)).data
      have h0 := adjustL_line off seg [] hs he htext
      rw [List.append_nil] at h0
      rw [h0, show adjustL off [] = [] from rfl, List.append_nil]
    · obtain ⟨hs, he, htext⟩ := h seg (by simp)
      have hnl : ("\n" : String).data = ['\n'] := rfl
      rw [renderTranscript_cons2]
      simp only [List.map_cons]
      rw [renderTranscript_cons2]
      simp only [String.data_append, hnl, List.append_assoc, List.singleton_append]
      rw [adjustL_line off seg ('\n' :: (renderTranscript (seg2 :: rest')).data) hs he htext]
      have hpass : adjustL off ('\n' :: (renderTranscript (seg2 :: rest')).data) =
          '\n' :: adjustL off (renderTranscript (seg2 :: rest')).data := by
        have he1 : ('\n' :: (renderTranscript (seg2 :: rest')).data) =
            ['\n'] ++ (renderTranscript (seg2 :: rest')).data := rfl
        rw [he1, adjustL_pass off ['\n'] _ (by intro c hc; simp at hc; subst hc; decide)]
        rfl
      rw [hpass, ih (fun s hs => h s (by simp [hs]))]
      simp only [List.map_cons]

/-- `adjust_timestamps` maps a rendered transcript of well-formed segments
to the rendered transcript of the time-shifted segments. -/
theorem adjust_timestamps_render (off : Nat) (segs : List Segment)
    (h : ∀ seg ∈ segs, segGood seg) :
    adjust_timestamps off (renderTranscript segs) =
      renderTranscript (segs.map (shiftSeg (60 * off))) := by
  show String.mk (adjustL off (renderTranscript segs).data) = _
  rw [adjustL_transcript off segs h]

/-- C6 (counterexample): offset-0 adjustment is not the identity on every
rendered transcript.  A segment whose Whisper text itself contains a
bracketed one-digit-minute pattern (`[5:30]`) is re-rendered with `%02d`
padding (`[05:30]`) by the `re.sub` pass, even at offset 0. -/
theorem claim_C6_zero_cex :
    adjust_timestamps 0 (renderTranscript [⟨0, 2, "ver [5:30] ok"⟩]) ≠
      renderTranscript [⟨0, 2, "ver [5:30] ok"⟩] := by decide

/-- C6 (amended): for rendered transcripts whose segments have times below
100 minutes (true of every chunk-relative transcript, chunks being 15
minutes) and whose texts contain no `[` character, adjustment at offset 0
is the identity, and adjustment by a chunk's start offset turns the
chunk-relative rendering into the whole-stream rendering of the same
segments — so rendering from one whole-stream chunk and rendering from a
split chunk plus shifting agree per segment. -/
theorem claim_C6_offset_adjust (off : Nat) (segs : List Segment)
    (h : ∀ seg ∈ segs, segGood seg) :
    adjust_timestamps 0 (renderTranscript segs) = renderTranscript segs ∧
    adjust_timestamps off (renderTranscript segs) =
      renderTranscript (segs.map (shiftSeg (60 * off))) := by
  constructor
  · rw [adjust_timestamps_render 0 segs h]
    have hid : shiftSeg (60 * 0) = fun seg => seg := by
      funext seg
      simp [shiftSeg]
    rw [hid]
    simp
  · exact adjust_timestamps_render off segs h

/-- Witness for `claim_C6_offset_adjust` on a concrete segment. -/
theorem claim_C6_offset_adjust_witness :
    (∀ seg ∈ [(⟨61, 65, "ola"⟩ : Segment)], segGood seg) ∧
    adjust_timestamps 0 (renderTranscript [(⟨61, 65, "ola"⟩ : Segment)]) =
      renderTranscript [(⟨61, 65, "ola"⟩ : Segment)] ∧
    adjust_timestamps 15 (renderTranscript [(⟨61, 65, "ola"⟩ : Segment)]) =
      renderTranscript ([(⟨61, 65, "ola"⟩ : Segment)].map (shiftSeg (60 * 15))) :=
  ⟨by decide, (claim_C6_offset_adjust 15 _ (by decide)).1,
    (claim_C6_offset_adjust 15 _ (by decide)).2⟩

theorem adjustGo_cons_ne_nil (off fuel : Nat) (c : Char) (cs : List Char) :
    adjustGo off (fuel + 1) (c :: cs) ≠ [] := by
  by_cases hc : c = '['
  · subst hc
    rcases hps : parseStamp cs with _ | ⟨sm, ss, r, rest⟩
    · rw [adjustGo_nomatch off fuel cs hps]
      simp
    · rw [adjustGo_match off fuel cs sm ss r rest hps]
      rcases r with _ | ⟨em, es⟩ <;> simp [renderShifted]
  · rw [adjustGo_other off fuel c cs hc]
    simp

theorem adjust_timestamps_ne_empty (off : Nat) (s : String) (h : s ≠ "") :
    adjust_timestamps off s ≠ "" := by
  rcases hd : s.data with _ | ⟨c, cs⟩
  · exact absurd (by apply String.ext; rw [hd]) h
  · intro habs
    have hdata : (adjust_timestamps off s).data = [] := by rw [habs]
    have hdata2 : adjustGo off s.data.length s.data = [] := hdata
    rw [hd] at hdata2
    simp only [List.length_cons] at hdata2
    exact adjustGo_cons_ne_nil off cs.length c cs hdata2

theorem str_append_ne_empty (a b : String) (h : a ≠ "") : a ++ b ≠ "" := by
  intro habs
  apply h
  apply String.ext
  have hab : (a ++ b).data = [] := by rw [habs]
  rw [String.data_append] at hab
  rcases List.append_eq_nil.mp hab with ⟨h1, _⟩
  rw [h1]

/-- A surviving chunk piece is non-empty: the code skips empty renders and
`adjust_timestamps` never empties a non-empty string. -/
theorem chunkPiece_ne_empty (p : Nat × Option WhisperResult) (t : String)
    (h : chunkPiece p = some t) : t ≠ "" := by
  rw [chunkPiece] at h
  rcases hts : transcribeSimple p.2 with _ | u <;> rw [hts] at h
  · simp at h
  · simp only [Option.some_bind] at h
    split_ifs at h with h1 h2
    · injection h with h'
      rw [← h']
      exact adjust_timestamps_ne_empty p.1 u h1
    · injection h with h'
      rw [← h']
      exact h1

theorem transcribeGo_cons_none (acc : String) (p : Nat × Option WhisperResult)
    (rest : List (Nat × Option WhisperResult)) (h : chunkPiece p = none) :
    transcribeGo acc (p :: rest) = transcribeGo acc rest := by
  rw [transcribeGo, h]

theorem transcribeGo_cons_some (acc : String) (p : Nat × Option WhisperResult)
    (rest : List (Nat × Option WhisperResult)) (t : String) (h : chunkPiece p = some t) :
    transcribeGo acc (p :: rest) =
      transcribeGo (if acc = "" then t else acc ++ "\n\n" ++ t) rest := by
  rw [transcribeGo, h]

theorem transcribeGo_acc_ne (chunks : List (Nat × Option WhisperResult)) :
    ∀ acc, acc ≠ "" → transcribeGo acc chunks ≠ "" := by
  induction chunks with
  | nil => intro acc h; exact h
  | cons p rest ih =>
    intro acc h
    rcases hcp : chunkPiece p with _ | t
    · rw [transcribeGo_cons_none acc p rest hcp]
      exact ih acc h
    · rw [transcribeGo_cons_some acc p rest t hcp, if_neg h]
      exact ih _ (str_append_ne_empty _ _ (str_append_ne_empty _ _ h))

theorem transcribeGo_exists (chunks : List (Nat × Option WhisperResult)) :
    (∃ p ∈ chunks, chunkPiece p ≠ none) → transcribeGo "" chunks ≠ "" := by
  induction chunks with
  | nil => intro h; simp at h
  | cons p rest ih =>
    intro h
    rcases hcp : chunkPiece p with _ | t
    · rw [transcribeGo_cons_none "" p rest hcp]
      apply ih
      rcases h with ⟨q, hq, hne⟩
      rcases List.mem_cons.mp hq with h1 | h1
      · subst h1
        exact absurd hcp hne
      · exact ⟨q, h1, hne⟩
    · rw [transcribeGo_cons_some "" p rest t hcp, if_pos rfl]
      exact transcribeGo_acc_ne rest t (chunkPiece_ne_empty p t hcp)

theorem transcribeGo_all_none (chunks : List (Nat × Option WhisperResult)) :
    (∀ p ∈ chunks, chunkPiece p = none) → transcribeGo "" chunks = "" := by
  induction chunks with
  | nil => intro _; rfl
  | cons p rest ih =>
    intro h
    rw [transcribeGo_cons_none "" p rest (h p (by simp))]
    exact ih (fun q hq => h q (by simp [hq]))

theorem transcribeGo_foldl (chunks : List (Nat × Option WhisperResult)) :
    ∀ acc, transcribeGo acc chunks =
      (successPieces chunks).foldl
        (fun a t => if a = "" then t else a ++ "\n\n" ++ t) acc := by
  induction chunks with
  | nil => intro acc; rfl
  | cons p rest ih =>
    intro acc
    rcases hcp : chunkPiece p with _ | t
    · rw [transcribeGo_cons_none acc p rest hcp, successPieces,
        List.filterMap_cons_none hcp]
      exact ih acc
    · rw [transcribeGo_cons_some acc p rest t hcp, successPieces,
        List.filterMap_cons_some hcp]
      simp only [List.foldl_cons]
      exact ih _

theorem foldl_join_of_ne (ts : List String) :
    ∀ acc, acc ≠ "" →
      ts.foldl (fun a t => if a = "" then t else a ++ "\n\n" ++ t) acc =
        ts.foldl (fun a b => a ++ "\n\n" ++ b) acc := by
  induction ts with
  | nil => intro acc _; rfl
  | cons t rest ih =>
    intro acc h
    simp only [List.foldl_cons]
    rw [if_neg h]
    exact ih _ (str_append_ne_empty _ _ (str_append_ne_empty _ _ h))

theorem recoveryCycle_fst (now : Nat) (s : List Interview) :
    (recoveryCycle now s).1 = s.map (cycleStep now) := by
  rw [recoveryCycle, retryPass, orphanPass]
  simp only [List.map_map]
  rfl

theorem mem_repoUpdateGo (i j : Interview) :
    ∀ s : List Interview, j ∈ repoUpdateGo s i → j = i ∨ j ∈ s := by
  intro s
  induction s with
  | nil => intro h; simp [repoUpdateGo] at h
  | cons k rest ih =>
    intro h
    rw [repoUpdateGo] at h
    split_ifs at h with hid
    · rcases List.mem_cons.mp h with h1 | h1
      · exact Or.inl h1
      · exact Or.inr (List.mem_cons_of_mem k h1)
    · rcases List.mem_cons.mp h with h1 | h1
      · exact Or.inr (by simp [h1])
      · rcases ih h1 with h2 | h2
        · exact Or.inl h2
        · exact Or.inr (List.mem_cons_of_mem k h2)

/-- A job selected by the orphan scan is in an active status. -/
theorem orphanSelect_active (now : Nat) (j : Interview)
    (h : orphanSelect now j = true) :
    j.status = .processing ∨ j.status = .transcribing ∨ j.status = .analyzing := by
  simp only [orphanSelect, Bool.and_eq_true, Bool.or_eq_true, beq_iff_eq] at h
  tauto

/-- A job selected by the failed-job scan is below the retry cap. -/
theorem retrySelect_lt_cap (now : Nat) (j : Interview)
    (h : retrySelect now j = true) : j.retry_count < maxRetryAttempts := by
  simp only [retrySelect, Bool.and_eq_true, decide_eq_true_eq] at h
  exact h.1.2

/-- A freshly orphan-recovered job is not picked up by the retry scan of
the same cycle: its `last_retry_at` is not yet past the backoff window. -/
theorem retrySelect_after_recover (now : Nat) (j : Interview) :
    retrySelect now (recoverInterview now j) = false := by
  simp only [retrySelect, recoverInterview]
  have : ¬(now < now - retryDelayMinutes) := by omega
  simp [this]

theorem cycleStep_inv (now : Nat) (j : Interview)
    (h : j.retry_count ≤ maxRetryAttempts ∧
      ((j.status = .processing ∨ j.status = .transcribing ∨ j.status = .analyzing) →
        j.retry_count = 0)) :
    (cycleStep now j).retry_count ≤ maxRetryAttempts ∧
      (((cycleStep now j).status = .processing ∨
        (cycleStep now j).status = .transcribing ∨
        (cycleStep now j).status = .analyzing) →
        (cycleStep now j).retry_count = 0) := by
  simp only [cycleStep]
  by_cases horph : orphanSelect now j = true
  · have hrc0 : j.retry_count = 0 := h.2 (orphanSelect_active now j horph)
    rw [if_pos horph, if_neg (by rw [retrySelect_after_recover]; simp)]
    constructor
    · simp [recoverInterview, hrc0, maxRetryAttempts]
    · intro habs
      simp [recoverInterview] at habs
  · rw [if_neg horph]
    by_cases hret : retrySelect now j = true
    · rw [if_pos hret]
      have hlt := retrySelect_lt_cap now j hret
      rw [retryInterview, if_neg (by omega)]
      constructor
      · simp only [resetForRetry]
        omega
      · intro habs
        simp [resetForRetry] at habs
    · rw [if_neg hret]
      exact h

/-- The strengthened invariant holds of every reachable store. -/
theorem reach_retryInv (s : List Interview) (h : Reach s) : RetryInv s := by
  induction h with
  | init =>
    intro j hj
    simp at hj
  | pipeCreate s i s2 _ hrc hst hcreate ih =>
    intro j hj
    rw [repoCreate] at hcreate
    split_ifs at hcreate with hdup
    injection hcreate with h2
    rw [← h2] at hj
    rcases List.mem_append.mp hj with h3 | h3
    · exact ih j h3
    · simp at h3
      subst h3
      refine ⟨by simp [hrc, maxRetryAttempts], fun _ => hrc⟩
  | pipeWrite s i _ hrc ih =>
    intro j hj
    rcases mem_repoUpdateGo i j s hj with h2 | h2
    · subst h2
      exact ⟨by simp [hrc, maxRetryAttempts], fun _ => hrc⟩
    · exact ih j h2
  | recovery s now _ ih =>
    intro j hj
    rw [recoveryCycle_fst] at hj
    rcases List.mem_map.mp hj with ⟨j0, hj0, rfl⟩
    exact cycleStep_inv now j0 (ih j0 hj0)

/-- C1: in every reachable store each job's `retry_count` stays within
`max_retries` (default 3); a job whose `retry_count` is at the cap is
never selected by the failed-job scan; and the orphan scan's
reclassification — which increments with no cap check — still never
pushes a reachable job's `retry_count` above the cap, because a job in an
active status was written by a pipeline run and carries `retry_count = 0`. -/
theorem claim_C1_retry_cap :
    (∀ s, Reach s → ∀ j ∈ s, j.retry_count ≤ maxRetryAttempts) ∧
    (∀ now j, j.retry_count = maxRetryAttempts → retrySelect now j = false) ∧
    (∀ s, Reach s → ∀ now j, j ∈ s → orphanSelect now j = true →
      (recoverInterview now j).retry_count ≤ maxRetryAttempts) := by
  refine ⟨?_, ?_, ?_⟩
  · intro s hs j hj
    exact (reach_retryInv s hs j hj).1
  · intro now j hj
    simp [retrySelect, hj]
  · intro s hs now j hj horph
    have hrc0 : j.retry_count = 0 :=
      (reach_retryInv s hs j hj).2 (orphanSelect_active now j horph)
    simp [recoverInterview, hrc0, maxRetryAttempts]

/-- Witness for `claim_C1_retry_cap`: a store reached by one job creation
satisfies the cap, and a capped job is rejected by the scan predicate. -/
theorem claim_C1_retry_cap_witness :
    (∀ j ∈ [newInterview 1 "p" 1 "a" 0], j.retry_count ≤ maxRetryAttempts) ∧
    retrySelect 50 cappedJob = false :=
  ⟨claim_C1_retry_cap.1 [newInterview 1 "p" 1 "a" 0]
    (Reach.pipeCreate [] (newInterview 1 "p" 1 "a" 0) _ Reach.init rfl rfl rfl),
   claim_C1_retry_cap.2.1 50 cappedJob rfl⟩

/-- No recovery cycle ever sends the permanent-failure notification: the
failed-job scan filters on `retry_count < max_retry_attempts`, so the
`retry_count >= max_retry_attempts` branch of `_retry_interview` — the
only caller of `_mark_permanently_failed` — is unreachable. -/
theorem recoveryCycle_no_permanent_note (now : Nat) (s : List Interview) :
    (recoveryCycle now s).2 = [] := by
  rw [recoveryCycle, retryPass]
  simp only
  have hall : ∀ i ∈ orphanPass now s,
      ¬(retrySelect now i && (retryInterview now i).2) = true := by
    intro i _
    by_cases hr : retrySelect now i = true
    · have hlt := retrySelect_lt_cap now i hr
      rw [retryInterview, if_neg (by omega)]
      simp
    · simp [hr]
  rw [List.filter_eq_nil_iff.mpr hall]
  rfl

/-- A job that is `FAILED` with `retry_count` at the cap is left exactly
as-is by a full recovery cycle. -/
theorem cycleStep_capped (now : Nat) (i : Interview) (hst : i.status = .failed)
    (hrc : maxRetryAttempts ≤ i.retry_count) : cycleStep now i = i := by
  have horph : orphanSelect now i = false := by
    simp [orphanSelect, hst]
  have hret : retrySelect now i = false := by
    simp [retrySelect, hst]
    intro _
    omega
  simp [cycleStep, horph, hret]

/-- C4 (code evaluated at the failing input): a `FAILED` job at the retry
cap with a stale `last_retry_at` is left untouched by a recovery cycle
and the permanent-failure notification list is empty — the owner is never
told the job is permanently failed. -/
theorem claim_C4_cap_eval : recoveryCycle 100 [cappedJob] = ([cappedJob], []) := by
  decide

theorem disciplineFrom_append (a : List Ev) :
    ∀ (b : List Ev) (cur : InterviewStatus),
      disciplineFrom cur (a ++ b) =
        (disciplineFrom cur a).bind (fun m => disciplineFrom m b) := by
  induction a with
  | nil =>
    intro b cur
    simp [disciplineFrom]
  | cons e rest ih =>
    intro b cur
    rcases e with st | sg | ok
    · rw [List.cons_append, disciplineFrom, disciplineFrom]
      split_ifs with h1
      · exact ih b st
      · simp
    · rw [List.cons_append, disciplineFrom, disciplineFrom]
      split_ifs with h1
      · exact ih b cur
      · simp
    · rw [List.cons_append, disciplineFrom, disciplineFrom]
      exact ih b cur

theorem repoUpdateGo_presence (i : Interview) :
    ∀ s : List Interview, s.any (fun j => j.id == i.id) = true →
      (repoUpdateGo s i).any (fun j => j.id == i.id) = true := by
  intro s
  induction s with
  | nil => intro h; simp at h
  | cons k rest ih =>
    intro h
    rw [repoUpdateGo]
    split_ifs with hid
    · simp
    · rw [List.any_cons] at h ⊢
      rcases Bool.or_eq_true _ _ |>.mp h with h1 | h1
      · exact absurd (by simpa using h1) hid
      · rw [ih h1]
        simp

theorem doUpdate_eq (st : List Interview) (iv : Interview) (ev : List Ev) (ix : Nat) :
    doUpdate ⟨st, iv, ev, ix⟩ =
      if st.any (fun j => j.id == iv.id) = true then
        ({ store := repoUpdateGo st iv, iv := iv,
           events := ev ++ [.commit iv.status], sendIx := ix }, true)
      else (⟨st, iv, ev, ix⟩, false) := by
  rw [doUpdate]
  rcases h : st.any (fun j => j.id == iv.id) with _ | _
  · rw [if_neg (by simp [repoUpdate, h]), if_neg (by simp [h])]
  · rw [if_pos (by simp [repoUpdate, h]), if_pos (by simp [h])]
    rfl

theorem chunkLoop_cons_matched (env : PipelineEnv) (startMs dur idx : Nat)
    (acc : String) (rest : List (Nat × Nat)) (st : List Interview) (iv : Interview)
    (ev : List Ev) (ix : Nat)
    (hpres : st.any (fun j => j.id ==
      ({ iv with chunks_processed := idx + 1 } : Interview).id) = true) :
    chunkLoop env ((startMs, dur) :: rest) idx acc ⟨st, iv, ev, ix⟩ =
      (let ivn : Interview := { iv with chunks_processed := idx + 1 }
       let s1 : RunSt := ⟨repoUpdateGo st ivn, ivn, ev ++ [.commit ivn.status], ix⟩
       let s2 := if idx + 1 ≤ ivn.chunks_total then doSend env s1 else s1
       let s3 := doWork .transcribing s2
       match chunkPiece (startMs / 60000, env.whisperAt idx) with
       | none => chunkLoop env rest (idx + 1) acc s3
       | some t =>
         chunkLoop env rest (idx + 1) (if acc = "" then t else acc ++ "\n\n" ++ t) s3) := by
  rw [chunkLoop]
  simp only [doUpdate_eq, if_pos hpres]

theorem chunkLoop_cons_skip (env : PipelineEnv) (startMs dur idx : Nat)
    (acc : String) (rest : List (Nat × Nat)) (st : List Interview) (iv : Interview)
    (ev : List Ev) (ix : Nat)
    (hpres : st.any (fun j => j.id ==
      ({ iv with chunks_processed := idx + 1 } : Interview).id) = true)
    (hcp : chunkPiece (startMs / 60000, env.whisperAt idx) = none) :
    chunkLoop env ((startMs, dur) :: rest) idx acc ⟨st, iv, ev, ix⟩ =
      chunkLoop env rest (idx + 1) acc
        (doWork .transcribing
          (if idx + 1 ≤ ({ iv with chunks_processed := idx + 1 } : Interview).chunks_total then
            doSend env ⟨repoUpdateGo st { iv with chunks_processed := idx + 1 },
              { iv with chunks_processed := idx + 1 },
              ev ++ [.commit ({ iv with chunks_processed := idx + 1 } : Interview).status], ix⟩
          else ⟨repoUpdateGo st { iv with chunks_processed := idx + 1 },
              { iv with chunks_processed := idx + 1 },
              ev ++ [.commit ({ iv with chunks_processed := idx + 1 } : Interview).status], ix⟩)) := by
  rw [chunkLoop_cons_matched env startMs dur idx acc rest st iv ev ix hpres]
  simp only
  rw [hcp]

theorem chunkLoop_cons_keep (env : PipelineEnv) (startMs dur idx : Nat)
    (acc t : String) (rest : List (Nat × Nat)) (st : List Interview) (iv : Interview)
    (ev : List Ev) (ix : Nat)
    (hpres : st.any (fun j => j.id ==
      ({ iv with chunks_processed := idx + 1 } : Interview).id) = true)
    (hcp : chunkPiece (startMs / 60000, env.whisperAt idx) = some t) :
    chunkLoop env ((startMs, dur) :: rest) idx acc ⟨st, iv, ev, ix⟩ =
      chunkLoop env rest (idx + 1) (if acc = "" then t else acc ++ "\n\n" ++ t)
        (doWork .transcribing
          (if idx + 1 ≤ ({ iv with chunks_processed := idx + 1 } : Interview).chunks_total then
            doSend env ⟨repoUpdateGo st { iv with chunks_processed := idx + 1 },
              { iv with chunks_processed := idx + 1 },
              ev ++ [.commit ({ iv with chunks_processed := idx + 1 } : Interview).status], ix⟩
          else ⟨repoUpdateGo st { iv with chunks_processed := idx + 1 },
              { iv with chunks_processed := idx + 1 },
              ev ++ [.commit ({ iv with chunks_processed := idx + 1 } : Interview).status], ix⟩)) := by
  rw [chunkLoop_cons_matched env startMs dur idx acc rest st iv ev ix hpres]
  simp only
  rw [hcp]

theorem doWork_doSend_eq (env : PipelineEnv) (st : List Interview) (iv : Interview)
    (ev : List Ev) (ix : Nat) :
    doWork .transcribing (doSend env ⟨st, iv, ev, ix⟩) =
      ⟨st, iv, ev ++ [.send (env.sendOk ix)] ++ [.work .transcribing], ix + 1⟩ := by
  simp [doSend, doWork]

theorem doWork_plain_eq (st : List Interview) (iv : Interview)
    (ev : List Ev) (ix : Nat) :
    doWork .transcribing (⟨st, iv, ev, ix⟩ : RunSt) =
      ⟨st, iv, ev ++ [.work .transcribing], ix⟩ := by
  simp [doWork]

theorem chunkInputs_cons (env : PipelineEnv) (startMs dur idx : Nat)
    (rest : List (Nat × Nat)) :
    chunkInputs env ((startMs, dur) :: rest) idx =
      (startMs / 60000, env.whisperAt idx) :: chunkInputs env rest (idx + 1) := rfl

theorem chunkLoop_walk (env : PipelineEnv) (f g : Nat → Bool) :
    ∀ (metas : List (Nat × Nat)) (idx : Nat) (acc : String) (st : List Interview)
      (iv : Interview) (ev1 ev2 : List Ev) (ix1 ix2 : Nat),
      st.any (fun j => j.id == iv.id) = true →
      iv.status = .transcribing →
      ∃ st2 iv2 ev1d ix1to ev2d ix2to,
        chunkLoop { env with sendOk := f } metas idx acc ⟨st, iv, ev1, ix1⟩ =
          .ok (⟨st2, iv2, ev1 ++ ev1d, ix1to⟩,
            transcribeGo acc (chunkInputs env metas idx)) ∧
        chunkLoop { env with sendOk := g } metas idx acc ⟨st, iv, ev2, ix2⟩ =
          .ok (⟨st2, iv2, ev2 ++ ev2d, ix2to⟩,
            transcribeGo acc (chunkInputs env metas idx)) ∧
        st2.any (fun j => j.id == iv2.id) = true ∧
        iv2 = { iv with chunks_processed := iv2.chunks_processed } ∧
        disciplineFrom .transcribing ev1d = some .transcribing ∧
        disciplineFrom .transcribing ev2d = some .transcribing := by
  intro metas
  induction metas with
  | nil =>
    intro idx acc st iv ev1 ev2 ix1 ix2 hpres hst
    refine ⟨st, iv, [], ix1, [], ix2, ?_, ?_, hpres, ?_, rfl, rfl⟩
    · rw [chunkLoop, List.append_nil]
      rfl
    · rw [chunkLoop, List.append_nil]
      rfl
    · rfl
  | cons meta rest ih =>
    intro idx acc st iv ev1 ev2 ix1 ix2 hpres hst
    rcases meta with ⟨startMs, dur⟩
    have hpres2 : st.any (fun j => j.id ==
        ({ iv with chunks_processed := idx + 1 } : Interview).id) = true := hpres
    have hivn : ({ iv with chunks_processed := idx + 1 } : Interview).status =
        InterviewStatus.transcribing := hst
    have hpres3 : (repoUpdateGo st ({ iv with chunks_processed := idx + 1 } : Interview)).any
        (fun j => j.id == ({ iv with chunks_processed := idx + 1 } : Interview).id) = true :=
      repoUpdateGo_presence _ st hpres2
    have hcompose : ∀ cp : Nat,
        ({ ({ iv with chunks_processed := idx + 1 } : Interview) with
            chunks_processed := cp } : Interview) =
          { iv with chunks_processed := cp } := fun _ => rfl
    have hprojf : ({ env with sendOk := f } : PipelineEnv).sendOk = f := rfl
    have hprojg : ({ env with sendOk := g } : PipelineEnv).sendOk = g := rfl
    rcases hcp : chunkPiece (startMs / 60000, env.whisperAt idx) with _ | t <;>
      by_cases hcond : idx + 1 ≤ ({ iv with chunks_processed := idx + 1 } : Interview).chunks_total
    · -- skipped chunk, progress message sent
      have hcpf : chunkPiece (startMs / 60000,
          ({ env with sendOk := f } : PipelineEnv).whisperAt idx) = none := hcp
      have hcpg : chunkPiece (startMs / 60000,
          ({ env with sendOk := g } : PipelineEnv).whisperAt idx) = none := hcp
      rw [chunkLoop_cons_skip { env with sendOk := f } startMs dur idx acc rest st iv ev1 ix1 hpres2 hcpf,
        chunkLoop_cons_skip { env with sendOk := g } startMs dur idx acc rest st iv ev2 ix2 hpres2 hcpg,
        if_pos hcond, if_pos hcond, doWork_doSend_eq, doWork_doSend_eq, hprojf, hprojg]
      obtain ⟨st2, iv2, ev1d, ix1to, ev2d, ix2to, h1, h2, hp2, hiv2, hd1, hd2⟩ :=
        ih (idx + 1) acc _ { iv with chunks_processed := idx + 1 }
          (ev1 ++ [.commit ({ iv with chunks_processed := idx + 1 } : Interview).status]
            ++ [.send (f ix1)] ++ [.work .transcribing])
          (ev2 ++ [.commit ({ iv with chunks_processed := idx + 1 } : Interview).status]
            ++ [.send (g ix2)] ++ [.work .transcribing])
          (ix1 + 1) (ix2 + 1) hpres3 hivn
      refine ⟨st2, iv2,
        [Ev.commit InterviewStatus.transcribing] ++ [.send (f ix1)]
          ++ [.work .transcribing] ++ ev1d, ix1to,
        [Ev.commit InterviewStatus.transcribing] ++ [.send (g ix2)]
          ++ [.work .transcribing] ++ ev2d, ix2to, ?_, ?_, hp2,
        by rw [hiv2, hcompose], ?_, ?_⟩
      · rw [h1, chunkInputs_cons, transcribeGo_cons_none _ _ _ hcp]
        simp [hst, List.append_assoc]
      · rw [h2, chunkInputs_cons, transcribeGo_cons_none _ _ _ hcp]
        simp [hst, List.append_assoc]
      · simp [disciplineFrom_append, disciplineFrom, stageStatus, hd1]
      · simp [disciplineFrom_append, disciplineFrom, stageStatus, hd2]
    · -- skipped chunk, no progress message
      have hcpf : chunkPiece (startMs / 60000,
          ({ env with sendOk := f } : PipelineEnv).whisperAt idx) = none := hcp
      have hcpg : chunkPiece (startMs / 60000,
          ({ env with sendOk := g } : PipelineEnv).whisperAt idx) = none := hcp
      rw [chunkLoop_cons_skip { env with sendOk := f } startMs dur idx acc rest st iv ev1 ix1 hpres2 hcpf,
        chunkLoop_cons_skip { env with sendOk := g } startMs dur idx acc rest st iv ev2 ix2 hpres2 hcpg,
        if_neg hcond, if_neg hcond, doWork_plain_eq, doWork_plain_eq]
      obtain ⟨st2, iv2, ev1d, ix1to, ev2d, ix2to, h1, h2, hp2, hiv2, hd1, hd2⟩ :=
        ih (idx + 1) acc _ { iv with chunks_processed := idx + 1 }
          (ev1 ++ [.commit ({ iv with chunks_processed := idx + 1 } : Interview).status]
            ++ [.work .transcribing])
          (ev2 ++ [.commit ({ iv with chunks_processed := idx + 1 } : Interview).status]
            ++ [.work .transcribing])
          ix1 ix2 hpres3 hivn
      refine ⟨st2, iv2,
        [Ev.commit InterviewStatus.transcribing] ++ [.work .transcribing] ++ ev1d, ix1to,
        [Ev.commit InterviewStatus.transcribing] ++ [.work .transcribing] ++ ev2d, ix2to,
        ?_, ?_, hp2, by rw [hiv2, hcompose], ?_, ?_⟩
      · rw [h1, chunkInputs_cons, transcribeGo_cons_none _ _ _ hcp]
        simp [hst, List.append_assoc]
      · rw [h2, chunkInputs_cons, transcribeGo_cons_none _ _ _ hcp]
        simp [hst, List.append_assoc]
      · simp [disciplineFrom_append, disciplineFrom, stageStatus, hd1]
      · simp [disciplineFrom_append, disciplineFrom, stageStatus, hd2]
    · -- surviving chunk, progress message sent
      have hcpf : chunkPiece (startMs / 60000,
          ({ env with sendOk := f } : PipelineEnv).whisperAt idx) = some t := hcp
      have hcpg : chunkPiece (startMs / 60000,
          ({ env with sendOk := g } : PipelineEnv).whisperAt idx) = some t := hcp
      rw [chunkLoop_cons_keep { env with sendOk := f } startMs dur idx acc t rest st iv ev1 ix1 hpres2 hcpf,
        chunkLoop_cons_keep { env with sendOk := g } startMs dur idx acc t rest st iv ev2 ix2 hpres2 hcpg,
        if_pos hcond, if_pos hcond, doWork_doSend_eq, doWork_doSend_eq, hprojf, hprojg]
      obtain ⟨st2, iv2, ev1d, ix1to, ev2d, ix2to, h1, h2, hp2, hiv2, hd1, hd2⟩ :=
        ih (idx + 1) (if acc = "" then t else acc ++ "\n\n" ++ t) _
          { iv with chunks_processed := idx + 1 }
          (ev1 ++ [.commit ({ iv with chunks_processed := idx + 1 } : Interview).status]
            ++ [.send (f ix1)] ++ [.work .transcribing])
          (ev2 ++ [.commit ({ iv with chunks_processed := idx + 1 } : Interview).status]
            ++ [.send (g ix2)] ++ [.work .transcribing])
          (ix1 + 1) (ix2 + 1) hpres3 hivn
      refine ⟨st2, iv2,
        [Ev.commit InterviewStatus.transcribing] ++ [.send (f ix1)]
          ++ [.work .transcribing] ++ ev1d, ix1to,
        [Ev.commit InterviewStatus.transcribing] ++ [.send (g ix2)]
          ++ [.work .transcribing] ++ ev2d, ix2to, ?_, ?_, hp2,
        by rw [hiv2, hcompose], ?_, ?_⟩
      · rw [h1, chunkInputs_cons, transcribeGo_cons_some _ _ _ _ hcp]
        simp [hst, List.append_assoc]
      · rw [h2, chunkInputs_cons, transcribeGo_cons_some _ _ _ _ hcp]
        simp [hst, List.append_assoc]
      · simp [disciplineFrom_append, disciplineFrom, stageStatus, hd1]
      · simp [disciplineFrom_append, disciplineFrom, stageStatus, hd2]
    · -- surviving chunk, no progress message
      have hcpf : chunkPiece (startMs / 60000,
          ({ env with sendOk := f } : PipelineEnv).whisperAt idx) = some t := hcp
      have hcpg : chunkPiece (startMs / 60000,
          ({ env with sendOk := g } : PipelineEnv).whisperAt idx) = some t := hcp
      rw [chunkLoop_cons_keep { env with sendOk := f } startMs dur idx acc t rest st iv ev1 ix1 hpres2 hcpf,
        chunkLoop_cons_keep { env with sendOk := g } startMs dur idx acc t rest st iv ev2 ix2 hpres2 hcpg,
        if_neg hcond, if_neg hcond, doWork_plain_eq, doWork_plain_eq]
      obtain ⟨st2, iv2, ev1d, ix1to, ev2d, ix2to, h1, h2, hp2, hiv2, hd1, hd2⟩ :=
        ih (idx + 1) (if acc = "" then t else acc ++ "\n\n" ++ t) _
          { iv with chunks_processed := idx + 1 }
          (ev1 ++ [.commit ({ iv with chunks_processed := idx + 1 } : Interview).status]
            ++ [.work .transcribing])
          (ev2 ++ [.commit ({ iv with chunks_processed := idx + 1 } : Interview).status]
            ++ [.work .transcribing])
          ix1 ix2 hpres3 hivn
      refine ⟨st2, iv2,
        [Ev.commit InterviewStatus.transcribing] ++ [.work .transcribing] ++ ev1d, ix1to,
        [Ev.commit InterviewStatus.transcribing] ++ [.work .transcribing] ++ ev2d, ix2to,
        ?_, ?_, hp2, by rw [hiv2, hcompose], ?_, ?_⟩
      · rw [h1, chunkInputs_cons, transcribeGo_cons_some _ _ _ _ hcp]
        simp [hst, List.append_assoc]
      · rw [h2, chunkInputs_cons, transcribeGo_cons_some _ _ _ _ hcp]
        simp [hst, List.append_assoc]
      · simp [disciplineFrom_append, disciplineFrom, stageStatus, hd1]
      · simp [disciplineFrom_append, disciplineFrom, stageStatus, hd2]

theorem doSend_eq (env : PipelineEnv) (st : List Interview) (iv : Interview)
    (ev : List Ev) (ix : Nat) :
    doSend env ⟨st, iv, ev, ix⟩ = ⟨st, iv, ev ++ [.send (env.sendOk ix)], ix + 1⟩ := rfl

theorem doWork_eq (sg : Stage) (st : List Interview) (iv : Interview)
    (ev : List Ev) (ix : Nat) :
    doWork sg ⟨st, iv, ev, ix⟩ = ⟨st, iv, ev ++ [.work sg], ix⟩ := rfl

theorem disciplineFrom_optSend (env : PipelineEnv) (c : Bool) (ix : Nat)
    (m : InterviewStatus) : disciplineFrom m (optSendEvs env c ix) = some m := by
  rcases c <;> rfl

theorem ivFrame_refl (a : Interview) : ivFrame a a :=
  ⟨rfl, rfl, rfl, rfl, rfl, rfl⟩

theorem ivFrame_trans (a b c : Interview) (h1 : ivFrame a b) (h2 : ivFrame b c) :
    ivFrame a c := by
  obtain ⟨x1, x2, x3, x4, x5, x6⟩ := h1
  obtain ⟨y1, y2, y3, y4, y5, y6⟩ := h2
  exact ⟨y1.trans x1, y2.trans x2, y3.trans x3, y4.trans x4, y5.trans x5, y6.trans x6⟩

theorem any_id_congr (st : List Interview) (a b : Interview)
    (h : st.any (fun j => j.id == a.id) = true) (he : b.id = a.id) :
    st.any (fun j => j.id == b.id) = true := by
  simp only [he]
  exact h

theorem stDownload_none (env : PipelineEnv) (st : List Interview) (iv : Interview)
    (ev : List Ev) (ix : Nat) (h : env.downloadResult = none) :
    stDownload env ⟨st, iv, ev, ix⟩ =
      .error (.downloadFailed,
        ⟨st, iv, ev ++ [.send (env.sendOk ix), .work .processing], ix + 1⟩) := by
  simp [stDownload, h, doSend, doWork]

theorem stDownload_zero (env : PipelineEnv) (st : List Interview) (iv : Interview)
    (ev : List Ev) (ix : Nat) (h : env.downloadResult = some 0) :
    stDownload env ⟨st, iv, ev, ix⟩ =
      .error (.downloadFailed,
        ⟨st, iv, ev ++ [.send (env.sendOk ix), .work .processing], ix + 1⟩) := by
  simp [stDownload, h, doSend, doWork]

theorem stDownload_pos (env : PipelineEnv) (st : List Interview) (iv : Interview)
    (ev : List Ev) (ix : Nat) (b : Nat) (h : env.downloadResult = some (b + 1)) :
    stDownload env ⟨st, iv, ev, ix⟩ =
      .ok (⟨st, { iv with audio_size_mb := b + 1 },
        ev ++ [.send (env.sendOk ix), .work .processing], ix + 1⟩, b + 1) := by
  simp [stDownload, h, doSend, doWork]

theorem stConvert_decodeFail (env : PipelineEnv) (st : List Interview) (iv : Interview)
    (ev : List Ev) (ix : Nat) (h : env.decodeOk = false) :
    stConvert env ⟨st, iv, ev, ix⟩ =
      .error (.conversionFailed,
        ⟨st, iv, ev ++ optSendEvs env env.estimateBig ix ++
          [.send (env.sendOk (optSendIx env.estimateBig ix)), .work .processing],
          optSendIx env.estimateBig ix + 1⟩) := by
  rcases hbig : env.estimateBig <;>
    simp [stConvert, h, hbig, optSendEvs, optSendIx, doSend, doWork]

theorem stConvert_tooLarge (env : PipelineEnv) (st : List Interview) (iv : Interview)
    (ev : List Ev) (ix : Nat) (h : env.decodeOk = true) (h2 : 25 < env.convertedSizeMB) :
    stConvert env ⟨st, iv, ev, ix⟩ =
      .error (.audioTooLarge,
        ⟨st, iv, ev ++ optSendEvs env env.estimateBig ix ++
          [.send (env.sendOk (optSendIx env.estimateBig ix)), .work .processing],
          optSendIx env.estimateBig ix + 1⟩) := by
  rcases hbig : env.estimateBig <;>
    simp [stConvert, h, h2, hbig, optSendEvs, optSendIx, doSend, doWork]

theorem stConvert_ok (env : PipelineEnv) (st : List Interview) (iv : Interview)
    (ev : List Ev) (ix : Nat) (h : env.decodeOk = true) (h2 : ¬ 25 < env.convertedSizeMB) :
    stConvert env ⟨st, iv, ev, ix⟩ =
      .ok ⟨st, iv, ev ++ optSendEvs env env.estimateBig ix ++
          [.send (env.sendOk (optSendIx env.estimateBig ix)), .work .processing],
          optSendIx env.estimateBig ix + 1⟩ := by
  rcases hbig : env.estimateBig <;>
    simp [stConvert, h, h2, hbig, optSendEvs, optSendIx, doSend, doWork]

theorem stChunks_eq (env : PipelineEnv) (st : List Interview) (iv : Interview)
    (ev : List Ev) (ix : Nat) (hpres : st.any (fun j => j.id == iv.id) = true) :
    stChunks env ⟨st, iv, ev, ix⟩ =
      .ok (⟨repoUpdateGo
              (repoUpdateGo st
                { iv with chunks_total := (split_into_chunks (15 * 60000) env.durationMs).length })
              { iv with chunks_total := (split_into_chunks (15 * 60000) env.durationMs).length,
                        status := InterviewStatus.transcribing },
            { iv with chunks_total := (split_into_chunks (15 * 60000) env.durationMs).length,
                      status := InterviewStatus.transcribing },
            ev ++ [.work .processing, .commit iv.status, .commit InterviewStatus.transcribing] ++
              optSendEvs env (decide (1 < (split_into_chunks (15 * 60000) env.durationMs).length)) ix,
            optSendIx (decide (1 < (split_into_chunks (15 * 60000) env.durationMs).length)) ix⟩,
        split_into_chunks (15 * 60000) env.durationMs) := by
  have h1 : st.any (fun j => j.id ==
      ({ iv with chunks_total := (split_into_chunks (15 * 60000) env.durationMs).length } :
        Interview).id) = true := hpres
  have h2 : (repoUpdateGo st
      ({ iv with chunks_total := (split_into_chunks (15 * 60000) env.durationMs).length } :
        Interview)).any (fun j => j.id ==
      ({ iv with chunks_total := (split_into_chunks (15 * 60000) env.durationMs).length,
                 status := InterviewStatus.transcribing } : Interview).id) = true :=
    repoUpdateGo_presence _ st h1
  by_cases hlen : 1 < (split_into_chunks (15 * 60000) env.durationMs).length <;>
    simp [stChunks, doUpdate_eq, h1, h2, hlen, optSendEvs, optSendIx, doSend, doWork]

theorem stAnalyze_none (env : PipelineEnv) (st : List Interview) (iv : Interview)
    (ev : List Ev) (ix : Nat) (h : env.analysisResult = none) :
    stAnalyze env ⟨st, iv, ev, ix⟩ =
      .error (.analysisFailed,
        ⟨st, iv,
          ev ++ [.send (env.sendOk ix), .work .analyzing] ++
            optSendEvs env env.analysisLong (ix + 1),
          optSendIx env.analysisLong (ix + 1)⟩) := by
  rcases hl : env.analysisLong <;>
    simp [stAnalyze, h, hl, optSendEvs, optSendIx, doSend, doWork]

theorem stAnalyze_some (env : PipelineEnv) (st : List Interview) (iv : Interview)
    (ev : List Ev) (ix : Nat) (r : Option String) (h : env.analysisResult = some r) :
    stAnalyze env ⟨st, iv, ev, ix⟩ =
      .ok ⟨st, applyAnalysis r iv,
        ev ++ [.send (env.sendOk ix), .work .analyzing] ++
          optSendEvs env env.analysisLong (ix + 1),
        optSendIx env.analysisLong (ix + 1)⟩ := by
  rcases hl : env.analysisLong <;> rcases r with _ | a <;>
    simp [stAnalyze, h, hl, applyAnalysis, optSendEvs, optSendIx, doSend, doWork]

theorem stDocs_fail (env : PipelineEnv) (st : List Interview) (iv : Interview)
    (ev : List Ev) (ix : Nat) (h : env.docgenOk = false) :
    stDocsComplete env ⟨st, iv, ev, ix⟩ =
      .error (.documentFailed,
        ⟨st, iv, ev ++ [.send (env.sendOk ix), .work .analyzing], ix + 1⟩) := by
  simp [stDocsComplete, h, doSend, doWork]

theorem stDocs_ok (env : PipelineEnv) (st : List Interview) (iv : Interview)
    (ev : List Ev) (ix : Nat) (h : env.docgenOk = true)
    (hpres : st.any (fun j => j.id == iv.id) = true) :
    stDocsComplete env ⟨st, iv, ev, ix⟩ =
      .ok ⟨repoUpdateGo st (mark_completed env.now iv), mark_completed env.now iv,
        ev ++ [.send (env.sendOk ix), .work .analyzing] ++
          optSendEvs env env.docUploadOk (ix + 1) ++
          optSendEvs env (iv.analysis.isSome && env.docUploadOk2)
            (optSendIx env.docUploadOk (ix + 1)) ++
          [.commit InterviewStatus.completed,
           .send (env.sendOk (optSendIx (iv.analysis.isSome && env.docUploadOk2)
             (optSendIx env.docUploadOk (ix + 1))))],
        optSendIx (iv.analysis.isSome && env.docUploadOk2)
          (optSendIx env.docUploadOk (ix + 1)) + 1⟩ := by
  have hp2 : st.any (fun j => j.id == (mark_completed env.now iv).id) = true := hpres
  have hp3 : ∃ x ∈ st, x.id = iv.id := by simpa using hpres
  rcases h1 : env.docUploadOk <;> rcases h2 : iv.analysis.isSome && env.docUploadOk2 <;>
    simp [stDocsComplete, h, h1, h2, hp2, hp3, doUpdate_eq, optSendEvs, optSendIx,
      doSend, doWork, mark_completed]

theorem doUpdate_iv (s : RunSt) : (doUpdate s).1.iv = s.iv := by
  simp only [doUpdate]
  split_ifs <;> rfl

theorem failHandler_iv (env : PipelineEnv) (err : PipelineErr) (s : RunSt) :
    (failHandler env err s).iv = mark_failed (errText err) env.now s.iv := by
  simp only [failHandler]
  rcases hu : doUpdate { s with iv := mark_failed (errText err) env.now s.iv } with ⟨s1, b⟩
  have hiv : s1.iv = mark_failed (errText err) env.now s.iv := by
    have h2 := doUpdate_iv { s with iv := mark_failed (errText err) env.now s.iv }
    rw [hu] at h2
    exact h2
  rcases b <;> simp [doSend, hiv]

theorem failHandler_walk (envA envB : PipelineEnv)
    (heq : envB = { envA with sendOk := envB.sendOk })
    (err : PipelineErr) (st : List Interview) (iv : Interview)
    (ev1 ev2 : List Ev) (ix1 ix2 : Nat)
    (hpres : st.any (fun j => j.id == iv.id) = true) :
    ∃ ev1d ev2d ix1to ix2to,
      failHandler envA err ⟨st, iv, ev1, ix1⟩ =
        ⟨repoUpdateGo st (mark_failed (errText err) envA.now iv),
          mark_failed (errText err) envA.now iv, ev1 ++ ev1d, ix1to⟩ ∧
      failHandler envB err ⟨st, iv, ev2, ix2⟩ =
        ⟨repoUpdateGo st (mark_failed (errText err) envA.now iv),
          mark_failed (errText err) envA.now iv, ev2 ++ ev2d, ix2to⟩ ∧
      (∀ m, disciplineFrom m ev1d = some .failed) ∧
      (∀ m, disciplineFrom m ev2d = some .failed) := by
  have hnowB : envB.now = envA.now := by rw [heq]
  have hp2 : st.any (fun j => j.id == (mark_failed (errText err) envA.now iv).id) = true := hpres
  have hp2B : st.any (fun j => j.id == (mark_failed (errText err) envB.now iv).id) = true := hpres
  have hp3 : ∃ x ∈ st, x.id = iv.id := by simpa using hpres
  refine ⟨[.commit .failed, .send (envA.sendOk ix1)],
    [.commit .failed, .send (envB.sendOk ix2)], ix1 + 1, ix2 + 1, ?_, ?_, ?_, ?_⟩
  · simp [failHandler, doUpdate_eq, hp2, hp3, doSend, mark_failed]
  · simp [failHandler, doUpdate_eq, hp2B, hp3, doSend, mark_failed, hnowB]
  · intro m
    simp [disciplineFrom]
  · intro m
    simp [disciplineFrom]

theorem ivFrame_of_cp (iv iv2 : Interview) (c : Nat)
    (h : iv2 = { iv with chunks_processed := c }) : ivFrame iv iv2 := by
  rw [h]
  exact ⟨rfl, rfl, rfl, rfl, rfl, rfl⟩

theorem applyAnalysis_facts (r : Option String) (iv : Interview) :
    ivFrame iv (applyAnalysis r iv) ∧ (applyAnalysis r iv).status = iv.status ∧
      (applyAnalysis r iv).transcript = iv.transcript := by
  rcases r with _ | a
  · exact ⟨ivFrame_refl iv, rfl, rfl⟩
  · exact ⟨⟨rfl, rfl, rfl, rfl, rfl, rfl⟩, rfl, rfl⟩

theorem chunkLoop_walk2 (envA envB : PipelineEnv)
    (heq : envB = { envA with sendOk := envB.sendOk }) :
    ∀ (metas : List (Nat × Nat)) (idx : Nat) (acc : String) (st : List Interview)
      (iv : Interview) (ev1 ev2 : List Ev) (ix1 ix2 : Nat),
      st.any (fun j => j.id == iv.id) = true →
      iv.status = .transcribing →
      ∃ st2 iv2 ev1d ix1to ev2d ix2to,
        chunkLoop envA metas idx acc ⟨st, iv, ev1, ix1⟩ =
          .ok (⟨st2, iv2, ev1 ++ ev1d, ix1to⟩,
            transcribeGo acc (chunkInputs envA metas idx)) ∧
        chunkLoop envB metas idx acc ⟨st, iv, ev2, ix2⟩ =
          .ok (⟨st2, iv2, ev2 ++ ev2d, ix2to⟩,
            transcribeGo acc (chunkInputs envA metas idx)) ∧
        st2.any (fun j => j.id == iv2.id) = true ∧
        iv2 = { iv with chunks_processed := iv2.chunks_processed } ∧
        disciplineFrom .transcribing ev1d = some .transcribing ∧
        disciplineFrom .transcribing ev2d = some .transcribing := by
  intro metas idx acc st iv ev1 ev2 ix1 ix2 hpres hst
  have walk := chunkLoop_walk envA envA.sendOk envB.sendOk metas idx acc st iv ev1 ev2
    ix1 ix2 hpres hst
  have e1 : ({ envA with sendOk := envA.sendOk } : PipelineEnv) = envA := rfl
  rw [e1, ← heq] at walk
  exact walk

theorem stDownload_walk (envA envB : PipelineEnv)
    (heq : envB = { envA with sendOk := envB.sendOk })
    (st : List Interview) (iv : Interview) (ev1 ev2 : List Ev) (ix1 ix2 : Nat)
    (hpres : st.any (fun j => j.id == iv.id) = true) :
    (∃ st2 iv2 b ev1d ev2d ix1to ix2to,
      stDownload envA ⟨st, iv, ev1, ix1⟩ = .ok (⟨st2, iv2, ev1 ++ ev1d, ix1to⟩, b) ∧
      stDownload envB ⟨st, iv, ev2, ix2⟩ = .ok (⟨st2, iv2, ev2 ++ ev2d, ix2to⟩, b) ∧
      st2.any (fun j => j.id == iv2.id) = true ∧
      ivFrame iv iv2 ∧ iv2.status = iv.status ∧ iv2.transcript = iv.transcript ∧
      disciplineFrom .processing ev1d = some .processing ∧
      disciplineFrom .processing ev2d = some .processing) ∨
    (∃ err st2 iv2 ev1d ev2d ix1to ix2to,
      stDownload envA ⟨st, iv, ev1, ix1⟩ = .error (err, ⟨st2, iv2, ev1 ++ ev1d, ix1to⟩) ∧
      stDownload envB ⟨st, iv, ev2, ix2⟩ = .error (err, ⟨st2, iv2, ev2 ++ ev2d, ix2to⟩) ∧
      st2.any (fun j => j.id == iv2.id) = true ∧
      ivFrame iv iv2 ∧ errExplains envA err ∧
      (∃ m1, disciplineFrom .processing ev1d = some m1) ∧
      (∃ m2, disciplineFrom .processing ev2d = some m2)) := by
  have hdlB : envB.downloadResult = envA.downloadResult := by rw [heq]
  rcases hdl : envA.downloadResult with _ | b
  · refine Or.inr ⟨.downloadFailed, st, iv,
      [.send (envA.sendOk ix1), .work .processing],
      [.send (envB.sendOk ix2), .work .processing], ix1 + 1, ix2 + 1,
      stDownload_none envA st iv ev1 ix1 hdl,
      stDownload_none envB st iv ev2 ix2 (hdlB.trans hdl),
      hpres, ivFrame_refl iv, Or.inl hdl, ⟨.processing, rfl⟩, ⟨.processing, rfl⟩⟩
  · rcases b with _ | b
    · refine Or.inr ⟨.downloadFailed, st, iv,
        [.send (envA.sendOk ix1), .work .processing],
        [.send (envB.sendOk ix2), .work .processing], ix1 + 1, ix2 + 1,
        stDownload_zero envA st iv ev1 ix1 hdl,
        stDownload_zero envB st iv ev2 ix2 (hdlB.trans hdl),
        hpres, ivFrame_refl iv, Or.inr hdl, ⟨.processing, rfl⟩, ⟨.processing, rfl⟩⟩
    · refine Or.inl ⟨st, { iv with audio_size_mb := b + 1 }, b + 1,
        [.send (envA.sendOk ix1), .work .processing],
        [.send (envB.sendOk ix2), .work .processing], ix1 + 1, ix2 + 1,
        stDownload_pos envA st iv ev1 ix1 b hdl,
        stDownload_pos envB st iv ev2 ix2 b (hdlB.trans hdl),
        hpres, ⟨rfl, rfl, rfl, rfl, rfl, rfl⟩, rfl, rfl, rfl, rfl⟩

theorem stConvert_walk (envA envB : PipelineEnv)
    (heq : envB = { envA with sendOk := envB.sendOk })
    (st : List Interview) (iv : Interview) (ev1 ev2 : List Ev) (ix1 ix2 : Nat) :
    (∃ ev1d ev2d ix1to ix2to,
      stConvert envA ⟨st, iv, ev1, ix1⟩ = .ok ⟨st, iv, ev1 ++ ev1d, ix1to⟩ ∧
      stConvert envB ⟨st, iv, ev2, ix2⟩ = .ok ⟨st, iv, ev2 ++ ev2d, ix2to⟩ ∧
      disciplineFrom .processing ev1d = some .processing ∧
      disciplineFrom .processing ev2d = some .processing) ∨
    (∃ err ev1d ev2d ix1to ix2to,
      stConvert envA ⟨st, iv, ev1, ix1⟩ = .error (err, ⟨st, iv, ev1 ++ ev1d, ix1to⟩) ∧
      stConvert envB ⟨st, iv, ev2, ix2⟩ = .error (err, ⟨st, iv, ev2 ++ ev2d, ix2to⟩) ∧
      errExplains envA err ∧
      (∃ m1, disciplineFrom .processing ev1d = some m1) ∧
      (∃ m2, disciplineFrom .processing ev2d = some m2)) := by
  have hdecB : envB.decodeOk = envA.decodeOk := by rw [heq]
  have hszB : envB.convertedSizeMB = envA.convertedSizeMB := by rw [heq]
  have hd1 : ∀ (env : PipelineEnv) (ix : Nat),
      disciplineFrom .processing (optSendEvs env env.estimateBig ix ++
        [.send (env.sendOk (optSendIx env.estimateBig ix)), .work .processing]) =
        some .processing := by
    intro env ix
    simp [disciplineFrom_append, disciplineFrom_optSend, disciplineFrom, stageStatus]
  rcases hdec : envA.decodeOk with _ | _
  · refine Or.inr ⟨.conversionFailed,
      optSendEvs envA envA.estimateBig ix1 ++
        [.send (envA.sendOk (optSendIx envA.estimateBig ix1)), .work .processing],
      optSendEvs envB envB.estimateBig ix2 ++
        [.send (envB.sendOk (optSendIx envB.estimateBig ix2)), .work .processing],
      optSendIx envA.estimateBig ix1 + 1, optSendIx envB.estimateBig ix2 + 1, ?_, ?_,
      hdec, ⟨.processing, hd1 envA ix1⟩, ⟨.processing, hd1 envB ix2⟩⟩
    · rw [stConvert_decodeFail envA st iv ev1 ix1 hdec]
      simp [List.append_assoc]
    · rw [stConvert_decodeFail envB st iv ev2 ix2 (hdecB.trans hdec)]
      simp [List.append_assoc]
  · by_cases hsz : 25 < envA.convertedSizeMB
    · refine Or.inr ⟨.audioTooLarge,
        optSendEvs envA envA.estimateBig ix1 ++
          [.send (envA.sendOk (optSendIx envA.estimateBig ix1)), .work .processing],
        optSendEvs envB envB.estimateBig ix2 ++
          [.send (envB.sendOk (optSendIx envB.estimateBig ix2)), .work .processing],
        optSendIx envA.estimateBig ix1 + 1, optSendIx envB.estimateBig ix2 + 1, ?_, ?_,
        hsz, ⟨.processing, hd1 envA ix1⟩, ⟨.processing, hd1 envB ix2⟩⟩
      · rw [stConvert_tooLarge envA st iv ev1 ix1 hdec hsz]
        simp [List.append_assoc]
      · rw [stConvert_tooLarge envB st iv ev2 ix2 (hdecB.trans hdec) (hszB ▸ hsz)]
        simp [List.append_assoc]
    · refine Or.inl ⟨
        optSendEvs envA envA.estimateBig ix1 ++
          [.send (envA.sendOk (optSendIx envA.estimateBig ix1)), .work .processing],
        optSendEvs envB envB.estimateBig ix2 ++
          [.send (envB.sendOk (optSendIx envB.estimateBig ix2)), .work .processing],
        optSendIx envA.estimateBig ix1 + 1, optSendIx envB.estimateBig ix2 + 1, ?_, ?_,
        hd1 envA ix1, hd1 envB ix2⟩
      · rw [stConvert_ok envA st iv ev1 ix1 hdec hsz]
        simp [List.append_assoc]
      · rw [stConvert_ok envB st iv ev2 ix2 (hdecB.trans hdec) (hszB ▸ hsz)]
        simp [List.append_assoc]

theorem stChunks_walk (envA envB : PipelineEnv)
    (heq : envB = { envA with sendOk := envB.sendOk })
    (st : List Interview) (iv : Interview) (ev1 ev2 : List Ev) (ix1 ix2 : Nat)
    (hpres : st.any (fun j => j.id == iv.id) = true)
    (hst : iv.status = .processing) :
    ∃ st2 iv2 ev1d ev2d ix1to ix2to,
      stChunks envA ⟨st, iv, ev1, ix1⟩ =
        .ok (⟨st2, iv2, ev1 ++ ev1d, ix1to⟩,
          split_into_chunks (15 * 60000) envA.durationMs) ∧
      stChunks envB ⟨st, iv, ev2, ix2⟩ =
        .ok (⟨st2, iv2, ev2 ++ ev2d, ix2to⟩,
          split_into_chunks (15 * 60000) envA.durationMs) ∧
      st2.any (fun j => j.id == iv2.id) = true ∧
      ivFrame iv iv2 ∧ iv2.status = .transcribing ∧ iv2.transcript = iv.transcript ∧
      disciplineFrom .processing ev1d = some .transcribing ∧
      disciplineFrom .processing ev2d = some .transcribing := by
  have hdur : envB.durationMs = envA.durationMs := by rw [heq]
  have hB := stChunks_eq envB st iv ev2 ix2 hpres
  rw [hdur] at hB
  have p1 : st.any (fun j => j.id ==
      ({ iv with chunks_total := (split_into_chunks (15 * 60000) envA.durationMs).length } :
        Interview).id) = true := hpres
  have p2 : (repoUpdateGo st
      ({ iv with chunks_total := (split_into_chunks (15 * 60000) envA.durationMs).length } :
        Interview)).any (fun j => j.id ==
      ({ iv with chunks_total := (split_into_chunks (15 * 60000) envA.durationMs).length,
                 status := InterviewStatus.transcribing } : Interview).id) = true :=
    repoUpdateGo_presence _ st p1
  have p3 := repoUpdateGo_presence
    ({ iv with chunks_total := (split_into_chunks (15 * 60000) envA.durationMs).length,
               status := InterviewStatus.transcribing } : Interview) _ p2
  have hdisc : ∀ (env : PipelineEnv) (ix : Nat),
      disciplineFrom .processing
        ([.work .processing, .commit iv.status, .commit InterviewStatus.transcribing] ++
          optSendEvs env (decide (1 < (split_into_chunks (15 * 60000) envA.durationMs).length)) ix) =
        some .transcribing := by
    intro env ix
    simp [disciplineFrom_append, disciplineFrom_optSend, disciplineFrom, stageStatus,
      hst, nextStatus]
  refine ⟨repoUpdateGo
      (repoUpdateGo st
        { iv with chunks_total := (split_into_chunks (15 * 60000) envA.durationMs).length })
      { iv with chunks_total := (split_into_chunks (15 * 60000) envA.durationMs).length,
                status := InterviewStatus.transcribing },
    { iv with chunks_total := (split_into_chunks (15 * 60000) envA.durationMs).length,
              status := InterviewStatus.transcribing },
    [.work .processing, .commit iv.status, .commit InterviewStatus.transcribing] ++
      optSendEvs envA (decide (1 < (split_into_chunks (15 * 60000) envA.durationMs).length)) ix1,
    [.work .processing, .commit iv.status, .commit InterviewStatus.transcribing] ++
      optSendEvs envB (decide (1 < (split_into_chunks (15 * 60000) envA.durationMs).length)) ix2,
    optSendIx (decide (1 < (split_into_chunks (15 * 60000) envA.durationMs).length)) ix1,
    optSendIx (decide (1 < (split_into_chunks (15 * 60000) envA.durationMs).length)) ix2,
    ?_, ?_, p3, ⟨rfl, rfl, rfl, rfl, rfl, rfl⟩, rfl, rfl, hdisc envA ix1, hdisc envB ix2⟩
  · rw [stChunks_eq envA st iv ev1 ix1 hpres]
    simp [List.append_assoc]
  · rw [hB]
    simp [List.append_assoc]

theorem stTranscribe_walk (envA envB : PipelineEnv)
    (heq : envB = { envA with sendOk := envB.sendOk })
    (metas : List (Nat × Nat))
    (st : List Interview) (iv : Interview) (ev1 ev2 : List Ev) (ix1 ix2 : Nat)
    (hpres : st.any (fun j => j.id == iv.id) = true)
    (hst : iv.status = .transcribing) :
    (∃ st2 iv2 ev1d ev2d ix1to ix2to,
      stTranscribe envA metas ⟨st, iv, ev1, ix1⟩ =
        .ok (⟨st2, iv2, ev1 ++ ev1d, ix1to⟩, transcribeGo "" (chunkInputs envA metas 0)) ∧
      stTranscribe envB metas ⟨st, iv, ev2, ix2⟩ =
        .ok (⟨st2, iv2, ev2 ++ ev2d, ix2to⟩, transcribeGo "" (chunkInputs envA metas 0)) ∧
      st2.any (fun j => j.id == iv2.id) = true ∧
      ivFrame iv iv2 ∧ iv2.status = .analyzing ∧
      iv2.transcript = some (transcribeGo "" (chunkInputs envA metas 0)) ∧
      transcribeGo "" (chunkInputs envA metas 0) ≠ "" ∧
      disciplineFrom .transcribing ev1d = some .analyzing ∧
      disciplineFrom .transcribing ev2d = some .analyzing) ∨
    (∃ st2 iv2 ev1d ev2d ix1to ix2to,
      stTranscribe envA metas ⟨st, iv, ev1, ix1⟩ =
        .error (.transcriptionFailed, ⟨st2, iv2, ev1 ++ ev1d, ix1to⟩) ∧
      stTranscribe envB metas ⟨st, iv, ev2, ix2⟩ =
        .error (.transcriptionFailed, ⟨st2, iv2, ev2 ++ ev2d, ix2to⟩) ∧
      st2.any (fun j => j.id == iv2.id) = true ∧
      ivFrame iv iv2 ∧ transcribeGo "" (chunkInputs envA metas 0) = "" ∧
      iv2.transcript = iv.transcript ∧
      (∃ m1, disciplineFrom .transcribing ev1d = some m1) ∧
      (∃ m2, disciplineFrom .transcribing ev2d = some m2)) := by
  obtain ⟨st2, iv2, ev1d, ix1to, ev2d, ix2to, h1, h2, hp2, hiv2, hd1, hd2⟩ :=
    chunkLoop_walk2 envA envB heq metas 0 "" st iv ev1 ev2 ix1 ix2 hpres hst
  by_cases hT : transcribeGo "" (chunkInputs envA metas 0) = ""
  · refine Or.inr ⟨st2, iv2, ev1d, ev2d, ix1to, ix2to, ?_, ?_, hp2,
      ivFrame_of_cp iv iv2 _ hiv2, hT, by rw [hiv2], ⟨.transcribing, hd1⟩,
      ⟨.transcribing, hd2⟩⟩
    · rw [stTranscribe, h1]
      simp [Except.bind, hT]
    · rw [stTranscribe, h2]
      simp [Except.bind, hT]
  · have hp3 : st2.any (fun j => j.id ==
        ({ iv2 with transcript := some (transcribeGo "" (chunkInputs envA metas 0)),
                    status := InterviewStatus.analyzing } : Interview).id) = true := hp2
    have hp3e : ∃ x ∈ st2, x.id = iv2.id := by simpa using hp2
    have p4 := repoUpdateGo_presence
      ({ iv2 with transcript := some (transcribeGo "" (chunkInputs envA metas 0)),
                  status := InterviewStatus.analyzing } : Interview) _ hp3
    refine Or.inl ⟨repoUpdateGo st2
        { iv2 with transcript := some (transcribeGo "" (chunkInputs envA metas 0)),
                   status := InterviewStatus.analyzing },
      { iv2 with transcript := some (transcribeGo "" (chunkInputs envA metas 0)),
                 status := InterviewStatus.analyzing },
      ev1d ++ [.commit InterviewStatus.analyzing],
      ev2d ++ [.commit InterviewStatus.analyzing], ix1to, ix2to, ?_, ?_, p4,
      ivFrame_trans iv iv2 _ (ivFrame_of_cp iv iv2 _ hiv2) ⟨rfl, rfl, rfl, rfl, rfl, rfl⟩,
      rfl, rfl, hT, ?_, ?_⟩
    · rw [stTranscribe, h1]
      simp [Except.bind, hT, doUpdate_eq, hp3, hp3e, List.append_assoc]
    · rw [stTranscribe, h2]
      simp [Except.bind, hT, doUpdate_eq, hp3, hp3e, List.append_assoc]
    · simp [disciplineFrom_append, hd1, disciplineFrom, nextStatus]
    · simp [disciplineFrom_append, hd2, disciplineFrom, nextStatus]

theorem stAnalyze_walk (envA envB : PipelineEnv)
    (heq : envB = { envA with sendOk := envB.sendOk })
    (st : List Interview) (iv : Interview) (ev1 ev2 : List Ev) (ix1 ix2 : Nat) :
    (∃ iv2 ev1d ev2d ix1to ix2to,
      stAnalyze envA ⟨st, iv, ev1, ix1⟩ = .ok ⟨st, iv2, ev1 ++ ev1d, ix1to⟩ ∧
      stAnalyze envB ⟨st, iv, ev2, ix2⟩ = .ok ⟨st, iv2, ev2 ++ ev2d, ix2to⟩ ∧
      ivFrame iv iv2 ∧ iv2.status = iv.status ∧ iv2.transcript = iv.transcript ∧
      disciplineFrom .analyzing ev1d = some .analyzing ∧
      disciplineFrom .analyzing ev2d = some .analyzing) ∨
    (∃ ev1d ev2d ix1to ix2to,
      stAnalyze envA ⟨st, iv, ev1, ix1⟩ =
        .error (.analysisFailed, ⟨st, iv, ev1 ++ ev1d, ix1to⟩) ∧
      stAnalyze envB ⟨st, iv, ev2, ix2⟩ =
        .error (.analysisFailed, ⟨st, iv, ev2 ++ ev2d, ix2to⟩) ∧
      envA.analysisResult = none ∧
      (∃ m1, disciplineFrom .analyzing ev1d = some m1) ∧
      (∃ m2, disciplineFrom .analyzing ev2d = some m2)) := by
  have hanB : envB.analysisResult = envA.analysisResult := by rw [heq]
  have hdisc : ∀ (env : PipelineEnv) (ix : Nat),
      disciplineFrom .analyzing
        ([.send (env.sendOk ix), .work .analyzing] ++
          optSendEvs env env.analysisLong (ix + 1)) = some .analyzing := by
    intro env ix
    simp [disciplineFrom_append, disciplineFrom_optSend, disciplineFrom, stageStatus]
  rcases han : envA.analysisResult with _ | r
  · refine Or.inr ⟨[.send (envA.sendOk ix1), .work .analyzing] ++
        optSendEvs envA envA.analysisLong (ix1 + 1),
      [.send (envB.sendOk ix2), .work .analyzing] ++
        optSendEvs envB envB.analysisLong (ix2 + 1),
      optSendIx envA.analysisLong (ix1 + 1), optSendIx envB.analysisLong (ix2 + 1),
      ?_, ?_, rfl, ⟨.analyzing, hdisc envA ix1⟩, ⟨.analyzing, hdisc envB ix2⟩⟩
    · rw [stAnalyze_none envA st iv ev1 ix1 han]
      simp [List.append_assoc]
    · rw [stAnalyze_none envB st iv ev2 ix2 (hanB.trans han)]
      simp [List.append_assoc]
  · obtain ⟨hf, hs, ht⟩ := applyAnalysis_facts r iv
    refine Or.inl ⟨applyAnalysis r iv,
      [.send (envA.sendOk ix1), .work .analyzing] ++
        optSendEvs envA envA.analysisLong (ix1 + 1),
      [.send (envB.sendOk ix2), .work .analyzing] ++
        optSendEvs envB envB.analysisLong (ix2 + 1),
      optSendIx envA.analysisLong (ix1 + 1), optSendIx envB.analysisLong (ix2 + 1),
      ?_, ?_, hf, hs, ht, hdisc envA ix1, hdisc envB ix2⟩
    · rw [stAnalyze_some envA st iv ev1 ix1 r han]
      simp [List.append_assoc]
    · rw [stAnalyze_some envB st iv ev2 ix2 r (hanB.trans han)]
      simp [List.append_assoc]

theorem stDocs_walk (envA envB : PipelineEnv)
    (heq : envB = { envA with sendOk := envB.sendOk })
    (st : List Interview) (iv : Interview) (ev1 ev2 : List Ev) (ix1 ix2 : Nat)
    (hpres : st.any (fun j => j.id == iv.id) = true) :
    (∃ iv2 ev1d ev2d ix1to ix2to,
      stDocsComplete envA ⟨st, iv, ev1, ix1⟩ =
        .ok ⟨repoUpdateGo st iv2, iv2, ev1 ++ ev1d, ix1to⟩ ∧
      stDocsComplete envB ⟨st, iv, ev2, ix2⟩ =
        .ok ⟨repoUpdateGo st iv2, iv2, ev2 ++ ev2d, ix2to⟩ ∧
      (repoUpdateGo st iv2).any (fun j => j.id == iv2.id) = true ∧
      ivFrame iv iv2 ∧ iv2.status = .completed ∧ iv2.transcript = iv.transcript ∧
      disciplineFrom .analyzing ev1d = some .completed ∧
      disciplineFrom .analyzing ev2d = some .completed) ∨
    (∃ ev1d ev2d ix1to ix2to,
      stDocsComplete envA ⟨st, iv, ev1, ix1⟩ =
        .error (.documentFailed, ⟨st, iv, ev1 ++ ev1d, ix1to⟩) ∧
      stDocsComplete envB ⟨st, iv, ev2, ix2⟩ =
        .error (.documentFailed, ⟨st, iv, ev2 ++ ev2d, ix2to⟩) ∧
      envA.docgenOk = false ∧
      (∃ m1, disciplineFrom .analyzing ev1d = some m1) ∧
      (∃ m2, disciplineFrom .analyzing ev2d = some m2)) := by
  have hdgB : envB.docgenOk = envA.docgenOk := by rw [heq]
  have hnowB : envB.now = envA.now := by rw [heq]
  have hdisc : ∀ (env : PipelineEnv) (ix : Nat) (c1 c2 : Bool),
      disciplineFrom .analyzing
        ([.send (env.sendOk ix), .work .analyzing] ++
          optSendEvs env c1 (ix + 1) ++ optSendEvs env c2 (optSendIx c1 (ix + 1)) ++
          [.commit InterviewStatus.completed,
           .send (env.sendOk (optSendIx c2 (optSendIx c1 (ix + 1))))]) =
        some .completed := by
    intro env ix c1 c2
    simp [disciplineFrom_append, disciplineFrom_optSend, disciplineFrom, stageStatus,
      nextStatus]
  rcases hdg : envA.docgenOk with _ | _
  · refine Or.inr ⟨[.send (envA.sendOk ix1), .work .analyzing],
      [.send (envB.sendOk ix2), .work .analyzing], ix1 + 1, ix2 + 1,
      stDocs_fail envA st iv ev1 ix1 hdg,
      stDocs_fail envB st iv ev2 ix2 (hdgB.trans hdg),
      rfl, ⟨.analyzing, rfl⟩, ⟨.analyzing, rfl⟩⟩
  · have hB := stDocs_ok envB st iv ev2 ix2 (hdgB.trans hdg) hpres
    rw [hnowB] at hB
    refine Or.inl ⟨mark_completed envA.now iv,
      [.send (envA.sendOk ix1), .work .analyzing] ++
        optSendEvs envA envA.docUploadOk (ix1 + 1) ++
        optSendEvs envA (iv.analysis.isSome && envA.docUploadOk2)
          (optSendIx envA.docUploadOk (ix1 + 1)) ++
        [.commit InterviewStatus.completed,
         .send (envA.sendOk (optSendIx (iv.analysis.isSome && envA.docUploadOk2)
           (optSendIx envA.docUploadOk (ix1 + 1))))],
      [.send (envB.sendOk ix2), .work .analyzing] ++
        optSendEvs envB envB.docUploadOk (ix2 + 1) ++
        optSendEvs envB (iv.analysis.isSome && envB.docUploadOk2)
          (optSendIx envB.docUploadOk (ix2 + 1)) ++
        [.commit InterviewStatus.completed,
         .send (envB.sendOk (optSendIx (iv.analysis.isSome && envB.docUploadOk2)
           (optSendIx envB.docUploadOk (ix2 + 1))))],
      optSendIx (iv.analysis.isSome && envA.docUploadOk2)
        (optSendIx envA.docUploadOk (ix1 + 1)) + 1,
      optSendIx (iv.analysis.isSome && envB.docUploadOk2)
        (optSendIx envB.docUploadOk (ix2 + 1)) + 1,
      ?_, ?_, repoUpdateGo_presence _ st hpres,
      ⟨rfl, rfl, rfl, rfl, rfl, rfl⟩, rfl, rfl,
      hdisc envA ix1 envA.docUploadOk (iv.analysis.isSome && envA.docUploadOk2),
      hdisc envB ix2 envB.docUploadOk (iv.analysis.isSome && envB.docUploadOk2)⟩
    · rw [stDocs_ok envA st iv ev1 ix1 hdg hpres]
      simp [List.append_assoc]
    · rw [hB]
      simp [List.append_assoc]

theorem except_bind_ok {α β : Type} (f : Except (PipelineErr × RunSt) α)
    (g : α → Except (PipelineErr × RunSt) β) (a : α) (h : f = .ok a) :
    (f >>= g) = g a := by
  rw [h]
  rfl

theorem except_bind_err {α β : Type} (f : Except (PipelineErr × RunSt) α)
    (g : α → Except (PipelineErr × RunSt) β) (x : PipelineErr × RunSt)
    (h : f = .error x) : (f >>= g) = .error x := by
  rw [h]
  rfl

theorem runBody_eq (env : PipelineEnv) (s : RunSt) :
    runBody env s = stDownload env s >>= fun p1 => runBody2 env p1.1 := rfl

theorem runBody2_eq (env : PipelineEnv) (s : RunSt) :
    runBody2 env s = stConvert env s >>= fun s2 => runBody3 env s2 := rfl

theorem runBody3_eq (env : PipelineEnv) (s : RunSt) :
    runBody3 env s = stChunks env s >>= fun p3 => runBody4 env p3.2 p3.1 := rfl

theorem runBody4_eq (env : PipelineEnv) (metas : List (Nat × Nat)) (s : RunSt) :
    runBody4 env metas s = stTranscribe env metas s >>= fun p4 => runBody5 env p4.1 := rfl

theorem runBody5_eq (env : PipelineEnv) (s : RunSt) :
    runBody5 env s = stAnalyze env s >>= fun s5 => stDocsComplete env s5 := rfl

theorem runBody_walk (envA envB : PipelineEnv)
    (heq : envB = { envA with sendOk := envB.sendOk })
    (st : List Interview) (iv : Interview) (ev1 ev2 : List Ev) (ix1 ix2 : Nat)
    (hpres : st.any (fun j => j.id == iv.id) = true)
    (hst : iv.status = .processing) :
    (∃ st2 iv2 ev1d ev2d ix1to ix2to,
      runBody envA ⟨st, iv, ev1, ix1⟩ = .ok ⟨st2, iv2, ev1 ++ ev1d, ix1to⟩ ∧
      runBody envB ⟨st, iv, ev2, ix2⟩ = .ok ⟨st2, iv2, ev2 ++ ev2d, ix2to⟩ ∧
      st2.any (fun j => j.id == iv2.id) = true ∧
      ivFrame iv iv2 ∧ iv2.status = .completed ∧
      iv2.transcript = some (pipeTranscript envA) ∧ pipeTranscript envA ≠ "" ∧
      disciplineFrom .processing ev1d = some .completed ∧
      disciplineFrom .processing ev2d = some .completed) ∨
    (∃ err st2 iv2 ev1d ev2d ix1to ix2to,
      runBody envA ⟨st, iv, ev1, ix1⟩ = .error (err, ⟨st2, iv2, ev1 ++ ev1d, ix1to⟩) ∧
      runBody envB ⟨st, iv, ev2, ix2⟩ = .error (err, ⟨st2, iv2, ev2 ++ ev2d, ix2to⟩) ∧
      st2.any (fun j => j.id == iv2.id) = true ∧
      ivFrame iv iv2 ∧ errExplains envA err ∧
      (∃ m1, disciplineFrom .processing ev1d = some m1) ∧
      (∃ m2, disciplineFrom .processing ev2d = some m2)) := by
  rcases stDownload_walk envA envB heq st iv ev1 ev2 ix1 ix2 hpres with
    ⟨s1t, i1, bb, a1, b1, j1, k1, hA1, hB1, hp1, hf1, hs1, ht1, hq1, hr1⟩ |
    ⟨err, s1t, i1, a1, b1, j1, k1, hA1, hB1, hp1, hf1, hx1, hm1, hn1⟩
  · have hA1v : runBody envA ⟨st, iv, ev1, ix1⟩ = runBody2 envA ⟨s1t, i1, ev1 ++ a1, j1⟩ := by
      rw [runBody_eq, except_bind_ok _ _ _ hA1]
    have hB1v : runBody envB ⟨st, iv, ev2, ix2⟩ = runBody2 envB ⟨s1t, i1, ev2 ++ b1, k1⟩ := by
      rw [runBody_eq, except_bind_ok _ _ _ hB1]
    rcases stConvert_walk envA envB heq s1t i1 (ev1 ++ a1) (ev2 ++ b1) j1 k1 with
      ⟨a2, b2, j2, k2, hA2, hB2, hq2, hr2⟩ |
      ⟨err, a2, b2, j2, k2, hA2, hB2, hx2, hm2, hn2⟩
    · have hA2v : runBody envA ⟨st, iv, ev1, ix1⟩ =
          runBody3 envA ⟨s1t, i1, ev1 ++ a1 ++ a2, j2⟩ := by
        rw [hA1v, runBody2_eq, except_bind_ok _ _ _ hA2]
      have hB2v : runBody envB ⟨st, iv, ev2, ix2⟩ =
          runBody3 envB ⟨s1t, i1, ev2 ++ b1 ++ b2, k2⟩ := by
        rw [hB1v, runBody2_eq, except_bind_ok _ _ _ hB2]
      rcases stChunks_walk envA envB heq s1t i1 (ev1 ++ a1 ++ a2) (ev2 ++ b1 ++ b2) j2 k2
          hp1 (hs1.trans hst) with
        ⟨s3t, i3, a3, b3, j3, k3, hA3, hB3, hp3, hf3, hs3, ht3, hq3, hr3⟩
      have hA3v : runBody envA ⟨st, iv, ev1, ix1⟩ =
          runBody4 envA (split_into_chunks (15 * 60000) envA.durationMs)
            ⟨s3t, i3, ev1 ++ a1 ++ a2 ++ a3, j3⟩ := by
        rw [hA2v, runBody3_eq, except_bind_ok _ _ _ hA3]
      have hB3v : runBody envB ⟨st, iv, ev2, ix2⟩ =
          runBody4 envB (split_into_chunks (15 * 60000) envA.durationMs)
            ⟨s3t, i3, ev2 ++ b1 ++ b2 ++ b3, k3⟩ := by
        rw [hB2v, runBody3_eq, except_bind_ok _ _ _ hB3]
      rcases stTranscribe_walk envA envB heq (split_into_chunks (15 * 60000) envA.durationMs)
          s3t i3 (ev1 ++ a1 ++ a2 ++ a3) (ev2 ++ b1 ++ b2 ++ b3) j3 k3 hp3 hs3 with
        ⟨s4t, i4, a4, b4, j4, k4, hA4, hB4, hp4, hf4, hs4, htr4, hne, hq4, hr4⟩ |
        ⟨s4t, i4, a4, b4, j4, k4, hA4, hB4, hp4, hf4, hTe, htr4, hm4, hn4⟩
      · have hA4v : runBody envA ⟨st, iv, ev1, ix1⟩ =
            runBody5 envA ⟨s4t, i4, ev1 ++ a1 ++ a2 ++ a3 ++ a4, j4⟩ := by
          rw [hA3v, runBody4_eq, except_bind_ok _ _ _ hA4]
        have hB4v : runBody envB ⟨st, iv, ev2, ix2⟩ =
            runBody5 envB ⟨s4t, i4, ev2 ++ b1 ++ b2 ++ b3 ++ b4, k4⟩ := by
          rw [hB3v, runBody4_eq, except_bind_ok _ _ _ hB4]
        rcases stAnalyze_walk envA envB heq s4t i4 (ev1 ++ a1 ++ a2 ++ a3 ++ a4)
            (ev2 ++ b1 ++ b2 ++ b3 ++ b4) j4 k4 with
          ⟨i5, a5, b5, j5, k5, hA5, hB5, hf5, hs5, ht5, hq5, hr5⟩ |
          ⟨a5, b5, j5, k5, hA5, hB5, hxan, hm5, hn5⟩
        · have hA5v : runBody envA ⟨st, iv, ev1, ix1⟩ =
              stDocsComplete envA ⟨s4t, i5, ev1 ++ a1 ++ a2 ++ a3 ++ a4 ++ a5, j5⟩ := by
            rw [hA4v, runBody5_eq, except_bind_ok _ _ _ hA5]
          have hB5v : runBody envB ⟨st, iv, ev2, ix2⟩ =
              stDocsComplete envB ⟨s4t, i5, ev2 ++ b1 ++ b2 ++ b3 ++ b4 ++ b5, k5⟩ := by
            rw [hB4v, runBody5_eq, except_bind_ok _ _ _ hB5]
          have hp5 : s4t.any (fun j => j.id == i5.id) = true :=
            any_id_congr s4t i4 i5 hp4 hf5.2.2.1
          rcases stDocs_walk envA envB heq s4t i5 (ev1 ++ a1 ++ a2 ++ a3 ++ a4 ++ a5)
              (ev2 ++ b1 ++ b2 ++ b3 ++ b4 ++ b5) j5 k5 hp5 with
            ⟨i6, a6, b6, j6, k6, hA6, hB6, hp6, hf6, hs6, ht6, hq6, hr6⟩ |
            ⟨a6, b6, j6, k6, hA6, hB6, hxdg, hm6, hn6⟩
          · refine Or.inl ⟨repoUpdateGo s4t i6, i6,
              a1 ++ (a2 ++ (a3 ++ (a4 ++ (a5 ++ a6)))),
              b1 ++ (b2 ++ (b3 ++ (b4 ++ (b5 ++ b6)))), j6, k6, ?_, ?_, hp6, ?_, hs6,
              ?_, hne, ?_, ?_⟩
            · rw [hA5v, hA6]
              simp [List.append_assoc]
            · rw [hB5v, hB6]
              simp [List.append_assoc]
            · exact ivFrame_trans _ _ _ (ivFrame_trans _ _ _ (ivFrame_trans _ _ _
                (ivFrame_trans _ _ _ hf1 hf3) hf4) hf5) hf6
            · rw [ht6, ht5, htr4]
              rfl
            · simp [disciplineFrom_append, hq1, hq2, hq3, hq4, hq5, hq6]
            · simp [disciplineFrom_append, hr1, hr2, hr3, hr4, hr5, hr6]
          · obtain ⟨m6, hm6v⟩ := hm6
            obtain ⟨n6, hn6v⟩ := hn6
            refine Or.inr ⟨.documentFailed, s4t, i5,
              a1 ++ (a2 ++ (a3 ++ (a4 ++ (a5 ++ a6)))),
              b1 ++ (b2 ++ (b3 ++ (b4 ++ (b5 ++ b6)))), j6, k6, ?_, ?_, hp5, ?_, hxdg,
              ⟨m6, ?_⟩, ⟨n6, ?_⟩⟩
            · rw [hA5v, hA6]
              simp [List.append_assoc]
            · rw [hB5v, hB6]
              simp [List.append_assoc]
            · exact ivFrame_trans _ _ _ (ivFrame_trans _ _ _
                (ivFrame_trans _ _ _ hf1 hf3) hf4) hf5
            · simp [disciplineFrom_append, hq1, hq2, hq3, hq4, hq5, hm6v]
            · simp [disciplineFrom_append, hr1, hr2, hr3, hr4, hr5, hn6v]
        · obtain ⟨m5, hm5v⟩ := hm5
          obtain ⟨n5, hn5v⟩ := hn5
          refine Or.inr ⟨.analysisFailed, s4t, i4,
            a1 ++ (a2 ++ (a3 ++ (a4 ++ a5))),
            b1 ++ (b2 ++ (b3 ++ (b4 ++ b5))), j5, k5, ?_, ?_, hp4, ?_, hxan,
            ⟨m5, ?_⟩, ⟨n5, ?_⟩⟩
          · rw [hA4v, runBody5_eq, except_bind_err _ _ _ hA5]
            simp [List.append_assoc]
          · rw [hB4v, runBody5_eq, except_bind_err _ _ _ hB5]
            simp [List.append_assoc]
          · exact ivFrame_trans _ _ _ (ivFrame_trans _ _ _ hf1 hf3) hf4
          · simp [disciplineFrom_append, hq1, hq2, hq3, hq4, hm5v]
          · simp [disciplineFrom_append, hr1, hr2, hr3, hr4, hn5v]
      · obtain ⟨m4, hm4v⟩ := hm4
        obtain ⟨n4, hn4v⟩ := hn4
        refine Or.inr ⟨.transcriptionFailed, s4t, i4,
          a1 ++ (a2 ++ (a3 ++ a4)), b1 ++ (b2 ++ (b3 ++ b4)), j4, k4, ?_, ?_, hp4, ?_,
          hTe, ⟨m4, ?_⟩, ⟨n4, ?_⟩⟩
        · rw [hA3v, runBody4_eq, except_bind_err _ _ _ hA4]
          simp [List.append_assoc]
        · rw [hB3v, runBody4_eq, except_bind_err _ _ _ hB4]
          simp [List.append_assoc]
        · exact ivFrame_trans _ _ _ (ivFrame_trans _ _ _ hf1 hf3) hf4
        · simp [disciplineFrom_append, hq1, hq2, hq3, hm4v]
        · simp [disciplineFrom_append, hr1, hr2, hr3, hn4v]
    · obtain ⟨m2, hm2v⟩ := hm2
      obtain ⟨n2, hn2v⟩ := hn2
      refine Or.inr ⟨err, s1t, i1, a1 ++ a2, b1 ++ b2, j2, k2, ?_, ?_, hp1, hf1, hx2,
        ⟨m2, ?_⟩, ⟨n2, ?_⟩⟩
      · rw [hA1v, runBody2_eq, except_bind_err _ _ _ hA2]
        simp [List.append_assoc]
      · rw [hB1v, runBody2_eq, except_bind_err _ _ _ hB2]
        simp [List.append_assoc]
      · simp [disciplineFrom_append, hq1, hm2v]
      · simp [disciplineFrom_append, hr1, hn2v]
  · refine Or.inr ⟨err, s1t, i1, a1, b1, j1, k1, ?_, ?_, hp1, hf1, hx1, hm1, hn1⟩
    · rw [runBody_eq, except_bind_err _ _ _ hA1]
    · rw [runBody_eq, except_bind_err _ _ _ hB1]

theorem repoCreate_some (s : List Interview) (i : Interview) (st1 : List Interview)
    (h : repoCreate s i = some st1) : st1 = s ++ [i] := by
  simp only [repoCreate] at h
  split_ifs at h
  injection h with h1
  exact h1.symm

theorem mark_processing_id (now : Nat) (i : Interview) :
    (mark_processing now i).id = i.id := rfl

theorem mark_processing_status (now : Nat) (i : Interview) :
    (mark_processing now i).status = .processing := rfl

theorem mark_failed_lra (e : String) (now : Nat) (i : Interview) :
    (mark_failed e now i).last_retry_at = i.last_retry_at := rfl

/-- `process_audio_message` after a successful `create`: the PENDING and
PROCESSING commits precede the pipeline body, whose failures are routed
through the `except` block. -/
theorem pam_eq (env : PipelineEnv) (store0 : List Interview) (i0 : Interview)
    (st1 : List Interview) (hc : repoCreate store0 i0 = some st1)
    (hpI : st1.any (fun j => j.id == i0.id) = true) :
    process_audio_message env store0 i0 =
      (match runBody env ⟨repoUpdateGo st1 (mark_processing env.now i0),
          mark_processing env.now i0,
          [.commit i0.status, .commit InterviewStatus.processing], 0⟩ with
       | .ok sOk => sOk
       | .error e => failHandler env e.1 e.2) := by
  have hpe : ∃ x ∈ st1, x.id = i0.id := by simpa using hpI
  rcases hrb : runBody env ⟨repoUpdateGo st1 (mark_processing env.now i0),
      mark_processing env.now i0,
      [.commit i0.status, .commit InterviewStatus.processing], 0⟩ with e | sOk
  · rcases e with ⟨err, sErr⟩
    simp [process_audio_message, hc, doUpdate_eq, hpI, hpe,
      mark_processing_id, mark_processing_status, hrb]
  · simp [process_audio_message, hc, doUpdate_eq, hpI, hpe,
      mark_processing_id, mark_processing_status, hrb]

/-- Every run of `process_audio_message` either hits the duplicate
`message_id` index, or commits PENDING and PROCESSING and then either
completes or fails for an explained reason; the recovery counters of the
in-memory interview are never touched. -/
theorem pam_cases (env : PipelineEnv) (store0 : List Interview) (i0 : Interview) :
    (repoCreate store0 i0 = none ∧
      process_audio_message env store0 i0 =
        ⟨store0, mark_failed (errText .databaseFailed) env.now i0, [], 0⟩) ∨
    (∃ st2 iv2 evd ixto,
      process_audio_message env store0 i0 =
        ⟨st2, iv2, [.commit i0.status, .commit InterviewStatus.processing] ++ evd, ixto⟩ ∧
      ivFrame i0 iv2 ∧
      (∃ m, disciplineFrom .processing evd = some m) ∧
      ((iv2.status = .completed ∧ iv2.transcript = some (pipeTranscript env) ∧
          pipeTranscript env ≠ "") ∨
       (iv2.status = .failed ∧ ∃ err, errExplains env err ∧
          iv2.error = some (errText err)))) := by
  rcases hc : repoCreate store0 i0 with _ | st1
  · left
    refine ⟨rfl, ?_⟩
    simp [process_audio_message, hc]
  · right
    have hst1 : st1 = store0 ++ [i0] := repoCreate_some store0 i0 st1 hc
    have hpI : st1.any (fun j => j.id == i0.id) = true := by
      rw [hst1]
      simp
    have hpm : st1.any (fun j => j.id == (mark_processing env.now i0).id) = true := hpI
    have hpres2 : (repoUpdateGo st1 (mark_processing env.now i0)).any
        (fun j => j.id == (mark_processing env.now i0).id) = true :=
      repoUpdateGo_presence _ st1 hpm
    have heqr : env = { env with sendOk := env.sendOk } := rfl
    rcases runBody_walk env env heqr (repoUpdateGo st1 (mark_processing env.now i0))
        (mark_processing env.now i0)
        [.commit i0.status, .commit InterviewStatus.processing]
        [.commit i0.status, .commit InterviewStatus.processing] 0 0 hpres2 rfl with
      ⟨st2, iv2, e1d, e2d, x1, x2, hok1, hok2, hp2, hfr, hs2, htr2, hne, hq, hr⟩ |
      ⟨err, st2, iv2, e1d, e2d, x1, x2, her1, her2, hp2, hfr, hx, hm, hn⟩
    · refine ⟨st2, iv2, e1d, x1, ?_, ?_, ⟨.completed, hq⟩, Or.inl ⟨hs2, htr2, hne⟩⟩
      · rw [pam_eq env store0 i0 st1 hc hpI, hok1]
      · exact ivFrame_trans _ _ _ ⟨rfl, rfl, rfl, rfl, rfl, rfl⟩ hfr
    · obtain ⟨fd1, fd2, y1, y2, hfh1, hfh2, hdf1, hdf2⟩ :=
        failHandler_walk env env heqr err st2 iv2
          ([.commit i0.status, .commit InterviewStatus.processing] ++ e1d)
          ([.commit i0.status, .commit InterviewStatus.processing] ++ e2d) x1 x2 hp2
      obtain ⟨m1, hm1⟩ := hm
      refine ⟨repoUpdateGo st2 (mark_failed (errText err) env.now iv2),
        mark_failed (errText err) env.now iv2, e1d ++ fd1, y1, ?_, ?_,
        ⟨.failed, ?_⟩, Or.inr ⟨rfl, err, hx, rfl⟩⟩
      · rw [pam_eq env store0 i0 st1 hc hpI, her1]
        show failHandler env err
            ⟨st2, iv2, [.commit i0.status, .commit InterviewStatus.processing] ++ e1d, x1⟩ = _
        rw [hfh1]
        simp [List.append_assoc]
      · exact ivFrame_trans _ _ _
          (ivFrame_trans _ _ _ ⟨rfl, rfl, rfl, rfl, rfl, rfl⟩ hfr)
          ⟨rfl, rfl, rfl, rfl, rfl, rfl⟩
      · simp [disciplineFrom_append, hm1, hdf1 m1]

/-- C5: a failure of the messaging collaborator never changes the pipeline
outcome: the final store and the final interview record (transcript,
analysis, status) of `process_audio_message` are identical no matter which
status-message sends succeed or fail. -/
theorem claim_C5_send_failure_immunity (env : PipelineEnv) (f g : Nat → Bool)
    (store0 : List Interview) (i0 : Interview) :
    (process_audio_message { env with sendOk := f } store0 i0).store =
      (process_audio_message { env with sendOk := g } store0 i0).store ∧
    (process_audio_message { env with sendOk := f } store0 i0).iv =
      (process_audio_message { env with sendOk := g } store0 i0).iv := by
  have heq2 : ({ env with sendOk := g } : PipelineEnv) =
      { ({ env with sendOk := f } : PipelineEnv) with
          sendOk := ({ env with sendOk := g } : PipelineEnv).sendOk } := rfl
  rcases hc : repoCreate store0 i0 with _ | st1
  · constructor <;> simp [process_audio_message, hc]
  · have hst1 : st1 = store0 ++ [i0] := repoCreate_some store0 i0 st1 hc
    have hpI : st1.any (fun j => j.id == i0.id) = true := by
      rw [hst1]
      simp
    have hpm : st1.any (fun j => j.id ==
        (mark_processing ({ env with sendOk := f } : PipelineEnv).now i0).id) = true := hpI
    have hpres2 := repoUpdateGo_presence
      (mark_processing ({ env with sendOk := f } : PipelineEnv).now i0) st1 hpm
    have hAv := pam_eq { env with sendOk := f } store0 i0 st1 hc hpI
    have hBv := pam_eq { env with sendOk := g } store0 i0 st1 hc hpI
    have hnow : ({ env with sendOk := g } : PipelineEnv).now =
        ({ env with sendOk := f } : PipelineEnv).now := rfl
    rw [hnow] at hBv
    rcases runBody_walk { env with sendOk := f } { env with sendOk := g } heq2
        (repoUpdateGo st1 (mark_processing ({ env with sendOk := f } : PipelineEnv).now i0))
        (mark_processing ({ env with sendOk := f } : PipelineEnv).now i0)
        [.commit i0.status, .commit InterviewStatus.processing]
        [.commit i0.status, .commit InterviewStatus.processing] 0 0 hpres2 rfl with
      ⟨st2, iv2, e1d, e2d, x1, x2, hok1, hok2, hp2, hfr, hs2, htr2, hne, hq, hr⟩ |
      ⟨err, st2, iv2, e1d, e2d, x1, x2, her1, her2, hp2, hfr, hx, hm, hn⟩
    · rw [hAv, hok1, hBv, hok2]
      exact ⟨rfl, rfl⟩
    · obtain ⟨fd1, fd2, y1, y2, hfh1, hfh2, hdf1, hdf2⟩ :=
        failHandler_walk { env with sendOk := f } { env with sendOk := g } heq2 err st2 iv2
          ([.commit i0.status, .commit InterviewStatus.processing] ++ e1d)
          ([.commit i0.status, .commit InterviewStatus.processing] ++ e2d) x1 x2 hp2
    
      rw [hAv, her1, hBv, her2]
      constructor
      · show (failHandler { env with sendOk := f } err
            ⟨st2, iv2, [.commit i0.status, .commit InterviewStatus.processing] ++ e1d, x1⟩).store =
          (failHandler { env with sendOk := g } err
            ⟨st2, iv2, [.commit i0.status, .commit InterviewStatus.processing] ++ e2d, x2⟩).store
        rw [hfh1, hfh2]
      · show (failHandler { env with sendOk := f } err
            ⟨st2, iv2, [.commit i0.status, .commit InterviewStatus.processing] ++ e1d, x1⟩).iv =
          (failHandler { env with sendOk := g } err
            ⟨st2, iv2, [.commit i0.status, .commit InterviewStatus.processing] ++ e2d, x2⟩).iv
        rw [hfh1, hfh2]

/-- C8: every run of the pipeline commits each status transition to the
store before the work of the next stage begins: its full event trace
satisfies the commit-before-work discipline started from PENDING. -/
theorem claim_C8_transition_commits (env : PipelineEnv) (store0 : List Interview)
    (i0 : Interview) (h0 : i0.status = .pending) :
    ∃ m, disciplineFrom .pending (process_audio_message env store0 i0).events = some m := by
  rcases pam_cases env store0 i0 with ⟨hc, hev⟩ |
    ⟨st2, iv2, evd, ixto, hev, hfr, ⟨m, hm⟩, hcase⟩
  · rw [hev]
    exact ⟨.pending, rfl⟩
  · rw [hev]
    refine ⟨m, ?_⟩
    show disciplineFrom .pending
      ([.commit i0.status, .commit InterviewStatus.processing] ++ evd) = some m
    simp [disciplineFrom_append, disciplineFrom, h0, nextStatus, hm]

/-- Witness for `claim_C8_transition_commits` on the concrete run. -/
theorem claim_C8_transition_commits_witness :
    i0W.status = .pending ∧
    ∃ m, disciplineFrom .pending (process_audio_message envW [] i0W).events = some m :=
  ⟨rfl, claim_C8_transition_commits envW [] i0W rfl⟩

/-- C9: the failed-job scan requires an actual `last_retry_at` timestamp
(a record with the field unset is never selected); a fresh interview has
the field unset, `mark_failed` does not touch it, and no pipeline run ever
sets it, so a job that fails during a pipeline run and is never
orphan-recovered is never automatically retried. -/
theorem claim_C9_retry_gate :
    (∀ (now : Nat) (j : Interview), j.last_retry_at = none → retrySelect now j = false) ∧
    (∀ (idv : Nat) (phone : String) (msgId : Nat) (audioId : String) (now : Nat),
      (newInterview idv phone msgId audioId now).last_retry_at = none) ∧
    (∀ (e : String) (now : Nat) (j : Interview),
      (mark_failed e now j).last_retry_at = j.last_retry_at) ∧
    (∀ (env : PipelineEnv) (store0 : List Interview) (i0 : Interview),
      i0.last_retry_at = none →
      (process_audio_message env store0 i0).iv.last_retry_at = none) := by
  refine ⟨?_, fun _ _ _ _ _ => rfl, fun _ _ _ => rfl, ?_⟩
  · intro now j h
    simp [retrySelect, h]
  · intro env store0 i0 h0
    rcases pam_cases env store0 i0 with ⟨hc, hev⟩ |
      ⟨st2, iv2, evd, ixto, hev, hfr, _, _⟩
    · rw [hev]
      show (mark_failed (errText .databaseFailed) env.now i0).last_retry_at = none
      rw [mark_failed_lra]
      exact h0
    · rw [hev]
      show iv2.last_retry_at = none
      rw [hfr.2.1]
      exact h0

/-- Witness for `claim_C9_retry_gate` on concrete inputs. -/
theorem claim_C9_retry_gate_witness :
    i0W.last_retry_at = none ∧ retrySelect 100 i0W = false ∧
    (process_audio_message envW [] i0W).iv.last_retry_at = none :=
  ⟨rfl, claim_C9_retry_gate.1 100 i0W rfl, claim_C9_retry_gate.2.2.2 envW [] i0W rfl⟩

/-- C3: with every chunk failed the step returns nothing and the job is
failed with the job-level transcription error; with at least one
successful chunk the step returns a non-empty partial transcript.  The
pipeline conjunct assumes every other stage of the environment is
healthy. -/
theorem claim_C3_total_vs_partial_failure :
    (∀ chunks : List (Nat × Option WhisperResult),
      (∀ p ∈ chunks, chunkPiece p = none) → transcribe_chunks chunks = none) ∧
    (∀ chunks : List (Nat × Option WhisperResult),
      (∃ p ∈ chunks, chunkPiece p ≠ none) →
      ∃ t, transcribe_chunks chunks = some t ∧ t ≠ "") ∧
    (∀ (env : PipelineEnv) (store0 : List Interview) (i0 : Interview)
        (st1 : List Interview) (bn : Nat) (r : Option String),
      repoCreate store0 i0 = some st1 →
      env.downloadResult = some bn → bn ≠ 0 →
      env.decodeOk = true → ¬ 25 < env.convertedSizeMB →
      env.analysisResult = some r → env.docgenOk = true →
      pipeTranscript env = "" →
      (process_audio_message env store0 i0).iv.status = .failed ∧
      (process_audio_message env store0 i0).iv.error = some "Transcription failed") := by
  refine ⟨?_, ?_, ?_⟩
  · intro chunks h
    simp [transcribe_chunks, transcribeGo_all_none chunks h]
  · intro chunks h
    have hne := transcribeGo_exists chunks h
    exact ⟨transcribeGo "" chunks, by simp [transcribe_chunks, hne], hne⟩
  · intro env store0 i0 st1 bn r hc hdl hbn hdec hsz han hdg hT
    rcases pam_cases env store0 i0 with ⟨hcn, hev⟩ |
      ⟨st2, iv2, evd, ixto, hev, hfr, _, hcase⟩
    · rw [hcn] at hc
      exact Option.noConfusion hc
    · rcases hcase with ⟨_, _, hne⟩ | ⟨hstf, err, hx, herr⟩
      · exact absurd hT hne
      · cases err with
        | downloadFailed =>
          rcases hx with h | h
          · rw [hdl] at h
            exact Option.noConfusion h
          · rw [hdl] at h
            injection h with h2
            exact absurd h2 hbn
        | conversionFailed =>
          have hx2 : env.decodeOk = false := hx
          rw [hdec] at hx2
          exact Bool.noConfusion hx2
        | audioTooLarge => exact absurd hx hsz
        | transcriptionProcess => exact False.elim hx
        | transcriptionFailed =>
          rw [hev]
          exact ⟨hstf, herr⟩
        | analysisFailed =>
          have hx2 : env.analysisResult = none := hx
          rw [han] at hx2
          exact Option.noConfusion hx2
        | documentFailed =>
          have hx2 : env.docgenOk = false := hx
          rw [hdg] at hx2
          exact Bool.noConfusion hx2
        | databaseFailed => exact False.elim hx

/-- Witness for `claim_C3_total_vs_partial_failure` on concrete inputs:
one failed chunk, and the concrete all-chunks-fail pipeline run. -/
theorem claim_C3_total_vs_partial_failure_witness :
    (∀ p ∈ [((0 : Nat), (none : Option WhisperResult))], chunkPiece p = none) ∧
    transcribe_chunks [((0 : Nat), (none : Option WhisperResult))] = none ∧
    repoCreate [] i0W = some [i0W] ∧ envW.downloadResult = some 5 ∧ (5 : Nat) ≠ 0 ∧
    envW.decodeOk = true ∧ ¬ 25 < envW.convertedSizeMB ∧
    envW.analysisResult = some (some "ok") ∧ envW.docgenOk = true ∧
    pipeTranscript envW = "" ∧
    (process_audio_message envW [] i0W).iv.status = .failed ∧
    (process_audio_message envW [] i0W).iv.error = some "Transcription failed" := by
  have hall : ∀ p ∈ [((0 : Nat), (none : Option WhisperResult))], chunkPiece p = none := by
    decide
  have hc : repoCreate [] i0W = some [i0W] := rfl
  have hT : pipeTranscript envW = "" := by decide
  obtain ⟨h1, h2⟩ := claim_C3_total_vs_partial_failure.2.2 envW [] i0W [i0W] 5 (some "ok")
    hc rfl (by decide) rfl (by decide) rfl rfl hT
  exact ⟨hall, claim_C3_total_vs_partial_failure.1 _ hall, hc, rfl, by decide, rfl,
    by decide, rfl, rfl, hT, h1, h2⟩

/-- With every other stage healthy, an empty assembled transcript is the
only way the run can abort: the job ends FAILED with the job-level
transcription error. -/
theorem goodEnv_empty_transcript_fails (env : PipelineEnv) (store0 : List Interview)
    (i0 : Interview) (st1 : List Interview) (bn : Nat) (r : Option String)
    (hc : repoCreate store0 i0 = some st1)
    (hdl : env.downloadResult = some bn) (hbn : bn ≠ 0)
    (hdec : env.decodeOk = true) (hsz : ¬ 25 < env.convertedSizeMB)
    (han : env.analysisResult = some r) (hdg : env.docgenOk = true)
    (hT : pipeTranscript env = "") :
    (process_audio_message env store0 i0).iv.status = .failed ∧
    (process_audio_message env store0 i0).iv.error = some "Transcription failed" := by
  rcases pam_cases env store0 i0 with ⟨hcn, hev⟩ |
    ⟨st2, iv2, evd, ixto, hev, hfr, _, hcase⟩
  · rw [hcn] at hc
    exact Option.noConfusion hc
  · rcases hcase with ⟨_, _, hne⟩ | ⟨hstf, err, hx, herr⟩
    · exact absurd hT hne
    · cases err with
      | downloadFailed =>
        rcases hx with h | h
        · rw [hdl] at h
          exact Option.noConfusion h
        · rw [hdl] at h
          injection h with h2
          exact absurd h2 hbn
      | conversionFailed =>
        have hx2 : env.decodeOk = false := hx
        rw [hdec] at hx2
        exact Bool.noConfusion hx2
      | audioTooLarge => exact absurd hx hsz
      | transcriptionProcess => exact False.elim hx
      | transcriptionFailed =>
        rw [hev]
        exact ⟨hstf, herr⟩
      | analysisFailed =>
        have hx2 : env.analysisResult = none := hx
        rw [han] at hx2
        exact Option.noConfusion hx2
      | documentFailed =>
        have hx2 : env.docgenOk = false := hx
        rw [hdg] at hx2
        exact Bool.noConfusion hx2
      | databaseFailed => exact False.elim hx

/-- A zero decoded duration makes the while loop exit immediately and the
assembled transcript empty. -/
theorem pipeTranscript_zero (env : PipelineEnv) (hdur : env.durationMs = 0) :
    pipeTranscript env = "" := by
  rw [pipeTranscript, hdur]
  rfl

/-- C7 (counterexample): a zero-duration input is NOT surfaced as a
conversion failure: the chunking engine silently returns zero chunks, and
the concrete run fails much later with the transcription error, whose text
differs from the conversion error's. -/
theorem claim_C7_zero_duration_cex :
    split_into_chunks (15 * 60000) 0 = [] ∧
    (process_audio_message envW0 [] i0W).iv.status = .failed ∧
    (process_audio_message envW0 [] i0W).iv.error = some "Transcription failed" ∧
    errText .conversionFailed = "Failed to convert audio" := by
  refine ⟨rfl, ?_, ?_, rfl⟩ <;> decide

/-- C7 (amended): a non-empty stream no longer than one chunk yields
exactly one chunk, but a zero-duration stream silently yields zero chunks
and (in an otherwise healthy environment) surfaces downstream as the
transcription failure, not as a conversion failure. -/
theorem claim_C7_zero_duration (D T : Nat) (hD : 0 < D) (hT0 : 0 < T) (hTD : T ≤ D)
    (env : PipelineEnv) (store0 : List Interview) (i0 : Interview)
    (st1 : List Interview) (bn : Nat) (r : Option String)
    (hdur : env.durationMs = 0) (hc : repoCreate store0 i0 = some st1)
    (hdl : env.downloadResult = some bn) (hbn : bn ≠ 0) (hdec : env.decodeOk = true)
    (hsz : ¬ 25 < env.convertedSizeMB) (han : env.analysisResult = some r)
    (hdg : env.docgenOk = true) :
    split_into_chunks D T = [(0, T)] ∧
    split_into_chunks D 0 = [] ∧
    (process_audio_message env store0 i0).iv.status = .failed ∧
    (process_audio_message env store0 i0).iv.error = some "Transcription failed" ∧
    (process_audio_message env store0 i0).iv.error ≠ some (errText .conversionFailed) := by
  obtain ⟨h1, h2⟩ := goodEnv_empty_transcript_fails env store0 i0 st1 bn r hc hdl hbn
    hdec hsz han hdg (pipeTranscript_zero env hdur)
  refine ⟨?_, rfl, h1, h2, ?_⟩
  · rw [split_into_chunks_eq_map D T hD]
    have hn1 : numChunks D T = 1 := by
      rw [numChunks]
      have h2d : T + D - 1 < (1 + 1) * D := by omega
      have h1d : 1 * D ≤ T + D - 1 := by omega
      have := Nat.div_eq_of_lt_le h1d h2d
      simpa using this
    rw [hn1]
    simp [List.range_succ, List.range_zero, chunkAt, Nat.min_eq_right hTD]
  · rw [h2]
    simp [errText]

/-- Witness for `claim_C7_zero_duration` at `D = 2`, `T = 1` in the
concrete zero-duration environment. -/
theorem claim_C7_zero_duration_witness :
    (0 : Nat) < 2 ∧ (0 : Nat) < 1 ∧ (1 : Nat) ≤ 2 ∧ envW0.durationMs = 0 ∧
    repoCreate [] i0W = some [i0W] ∧ envW0.downloadResult = some 5 ∧ (5 : Nat) ≠ 0 ∧
    envW0.decodeOk = true ∧ ¬ 25 < envW0.convertedSizeMB ∧
    envW0.analysisResult = some (some "ok") ∧ envW0.docgenOk = true ∧
    (split_into_chunks 2 1 = [(0, 1)] ∧
     split_into_chunks 2 0 = [] ∧
     (process_audio_message envW0 [] i0W).iv.status = .failed ∧
     (process_audio_message envW0 [] i0W).iv.error = some "Transcription failed" ∧
     (process_audio_message envW0 [] i0W).iv.error ≠ some (errText .conversionFailed)) :=
  ⟨by decide, by decide, by decide, rfl, rfl, rfl, by decide, rfl, by decide, rfl, rfl,
    claim_C7_zero_duration 2 1 (by decide) (by decide) (by decide) envW0 [] i0W [i0W] 5
      (some "ok") rfl rfl rfl (by decide) rfl (by decide) rfl rfl⟩

/-- C10 (counterexample): the re-driven pipeline never persists its
brand-new record: the unique `message_id` index rejects the insert, so
after the re-drive the store still holds exactly the reset original. -/
theorem claim_C10_redrive_cex :
    (recoveryCycle 100 [origJob]).1 = [resetForRetry 100 origJob] ∧
    (resetForRetry 100 origJob).status = .pending ∧
    repoCreate [resetForRetry 100 origJob] (newInterview 9 "owner" 7 "audio" 100) = none ∧
    (process_audio_message envW [resetForRetry 100 origJob]
        (newInterview 9 "owner" 7 "audio" 100)).store = [resetForRetry 100 origJob] := by
  refine ⟨?_, rfl, rfl, ?_⟩ <;> decide

/-- C10 (amended): re-driving a failed job leaves the store exactly as the
scan's reset wrote it: the duplicate `message_id` insert is rejected and
mutates nothing, the reset record is PENDING with its identity fields
unchanged, a PENDING record is invisible to both scans and is a fixed
point of every recovery pass, and the never-persisted fresh record would
have carried PENDING and `retry_count = 0`. -/
theorem claim_C10_redrive_frame (env : PipelineEnv) (now : Nat) (j i0 : Interview)
    (store0 : List Interview)
    (hdup : ∃ k ∈ store0, k.message_id = i0.message_id) :
    repoCreate store0 i0 = none ∧
    (process_audio_message env store0 i0).store = store0 ∧
    (resetForRetry now j).status = .pending ∧
    (resetForRetry now j).message_id = j.message_id ∧
    (resetForRetry now j).id = j.id ∧
    (resetForRetry now j).phone_number = j.phone_number ∧
    (resetForRetry now j).created_at = j.created_at ∧
    (∀ j2 : Interview, j2.status = .pending →
      orphanSelect now j2 = false ∧ retrySelect now j2 = false ∧
      cycleStep now j2 = j2) ∧
    (∀ (idv : Nat) (ph : String) (m : Nat) (a : String) (n : Nat),
      (newInterview idv ph m a n).status = .pending ∧
      (newInterview idv ph m a n).retry_count = 0) := by
  have hany : store0.any (fun k => k.message_id == i0.message_id) = true := by
    obtain ⟨k, hk, he⟩ := hdup
    exact List.any_eq_true.mpr ⟨k, hk, by simp [he]⟩
  have hcn : repoCreate store0 i0 = none := by
    simp [repoCreate, hany]
  refine ⟨hcn, ?_, rfl, rfl, rfl, rfl, rfl, ?_, fun _ _ _ _ _ => ⟨rfl, rfl⟩⟩
  · simp [process_audio_message, hcn]
  · intro j2 h2
    have ho : orphanSelect now j2 = false := by
      simp [orphanSelect, h2]
    have hr : retrySelect now j2 = false := by
      simp [retrySelect, h2]
    exact ⟨ho, hr, by simp [cycleStep, ho, hr]⟩

/-- Witness for `claim_C10_redrive_frame` on the concrete re-drive. -/
theorem claim_C10_redrive_frame_witness :
    (∃ k ∈ [resetForRetry 100 origJob],
      k.message_id = (newInterview 9 "owner" 7 "audio" 100).message_id) ∧
    repoCreate [resetForRetry 100 origJob] (newInterview 9 "owner" 7 "audio" 100) = none ∧
    (process_audio_message envW [resetForRetry 100 origJob]
        (newInterview 9 "owner" 7 "audio" 100)).store = [resetForRetry 100 origJob] := by
  have hdup : ∃ k ∈ [resetForRetry 100 origJob],
      k.message_id = (newInterview 9 "owner" 7 "audio" 100).message_id :=
    ⟨resetForRetry 100 origJob, by simp, by decide⟩
  obtain ⟨ha, hb, _⟩ := claim_C10_redrive_frame envW 100 origJob
    (newInterview 9 "owner" 7 "audio" 100) [resetForRetry 100 origJob] hdup
  exact ⟨hdup, ha, hb⟩

end WhatsappBot
